import Mathlib

/-!
FinWiz dashboard view-model.

A shallow embedding of `src/frontend/App.jsx`: the category aggregation that
feeds the pie chart (`categoryData`, `pieData`, the `Cell` colour lookup), the
chat handler `handleSendMessage`, and the add-transaction form (submit and
Cancel).

Conventions of the embedding.

* A finite number is represented by its exact value in `ℚ`; arithmetic and
  parsing round to the nearest double (`roundToDouble`) as the runtime does.
* The accumulator `{}` of the `reduce` is an ordinary object: its own
  properties are kept in creation order, reads fall through to
  `Object.prototype`, and `Object.keys` lists array-index keys first.
* Network calls are a parameter of each handler: a function from the request
  to the outcome the `await` resumes with.
-/

namespace FinWiz

/-! ## Data model -/

/-- Transaction record as delivered by the backend (`amount` is the exact
value of a finite double; `category` is `none` when the field is `null` or
absent). -/
structure Transaction where
  id : Nat
  date : String
  description : String
  amount : ℚ
  category : Option String
deriving DecidableEq

/-- Number value: a finite value (its exact mathematical value), an infinity,
or `NaN`. -/
inductive JsNumber where
  | finite (q : ℚ)
  | infinity (negative : Bool)
  | nan
deriving DecidableEq

/-! ## Double arithmetic -/

/-- Number of binary digits of `n`, by halving at most `fuel` times. -/
def bitLengthAux : Nat → Nat → Nat
  | 0, _ => 0
  | fuel + 1, n => if n = 0 then 0 else bitLengthAux fuel (n / 2) + 1

/-- Number of binary digits of `n` (`0` for `0`). -/
def bitLength (n : Nat) : Nat := bitLengthAux n n

/-- The integer `e` with `2^e ≤ p / q < 2^(e+1)`, for positive `p` and `q`. -/
def floorLog2 (p q : Nat) : Int :=
  let e0 : Int := (bitLength p : Int) - (bitLength q : Int)
  if p * 2 ^ (-e0).toNat ≥ q * 2 ^ e0.toNat then e0 else e0 - 1

/-- Nearest integer to `a / b`, ties to the even one. -/
def roundHalfEven (a b : Nat) : Nat :=
  let d := a / b
  let r := a % b
  if 2 * r < b then d
  else if b < 2 * r then d + 1
  else if d % 2 = 0 then d else d + 1

/-- Rounding of the positive ratio `p / q` to binary64: the significand `n`
and the exponent `k` of the nearest double `n * 2^k` (53 significant bits,
least exponent `-1074`, ties to even; `n` below `2^53`, and at least `2^52`
unless `k = -1074`), or `none` when the rounded value reaches `2^1024`. -/
def roundParts (p q : Nat) : Option (Nat × Int) :=
  let e := floorLog2 p q
  let k : Int := max e (-1022) - 52
  let n := roundHalfEven (p * 2 ^ (-k).toNat) (q * 2 ^ k.toNat)
  let nk : Nat × Int := if n = 2 ^ 53 then (2 ^ 52, k + 1) else (n, k)
  if 971 < nk.2 then none else some nk

/-- The double nearest to `± p / q`, overflowing to an infinity. -/
def roundRatio (negative : Bool) (p q : Nat) : JsNumber :=
  if p = 0 then JsNumber.finite 0
  else match roundParts p q with
    | none => JsNumber.infinity negative
    | some (n, k) =>
      JsNumber.finite ((if negative then -1 else 1) * ((n : ℚ) * 2 ^ k))

/-- The double nearest to the real number `x` (round to nearest, ties to
even), overflowing to an infinity. -/
def roundToDouble (x : ℚ) : JsNumber :=
  roundRatio (decide (x < 0)) x.num.natAbs x.den

/-- The operator `+` on numbers: the exact sum of two finite operands rounded
to the nearest double. -/
def jsAdd : JsNumber → JsNumber → JsNumber
  | JsNumber.finite a, JsNumber.finite b => roundToDouble (a + b)
  | JsNumber.finite _, JsNumber.infinity t => JsNumber.infinity t
  | JsNumber.infinity s, JsNumber.finite _ => JsNumber.infinity s
  | JsNumber.infinity s, JsNumber.infinity t =>
    if s = t then JsNumber.infinity s else JsNumber.nan
  | JsNumber.nan, _ => JsNumber.nan
  | _, JsNumber.nan => JsNumber.nan

/-- The function `Math.abs` on numbers. -/
def jsAbs : JsNumber → JsNumber
  | JsNumber.finite q => JsNumber.finite |q|
  | JsNumber.infinity _ => JsNumber.infinity false
  | JsNumber.nan => JsNumber.nan

/-- Value stored in a property of the accumulator object. `text` stands for a
string that does not read as a number (the source text of a built-in function,
or `[object Object]`, followed by appended amounts). -/
inductive AccValue where
  | number (v : JsNumber)
  | text
deriving DecidableEq

/-- Outcome of the property read `acc[key]`. -/
inductive Lookup where
  | undefined
  | own (v : AccValue)
  | inheritedFunction
  | prototypeObject
deriving DecidableEq

/-- Own enumerable properties of the accumulator, in creation order. -/
abbrev JsObject := List (String × AccValue)

/-- Entry of `pieData`. -/
structure PieEntry where
  name : String
  value : JsNumber
deriving DecidableEq

/-! ## Object semantics used by the aggregation -/

/-- Function-valued properties every plain object inherits from
`Object.prototype`. -/
def inheritedFunctionNames : List String :=
  ["constructor", "hasOwnProperty", "isPrototypeOf", "propertyIsEnumerable",
   "toLocaleString", "toString", "valueOf", "__defineGetter__",
   "__defineSetter__", "__lookupGetter__", "__lookupSetter__"]

/-- Name of the inherited accessor property. -/
def protoName : String := "__proto__"

/-- Property read `acc[key]`: own property first, then `Object.prototype`. -/
def getProp (acc : JsObject) (key : String) : Lookup :=
  if key = protoName then Lookup.prototypeObject
  else match acc.lookup key with
    | some v => Lookup.own v
    | none =>
      if key ∈ inheritedFunctionNames then Lookup.inheritedFunction
      else Lookup.undefined

/-- Replace the value of an existing own property, keeping its position. -/
def replaceProp (key : String) (v : AccValue) : JsObject → JsObject
  | [] => []
  | (k, w) :: rest =>
    if k = key then (k, v) :: rest else (k, w) :: replaceProp key v rest

/-- Property write `acc[key] = v` of a primitive `v`: the `__proto__` setter
ignores primitives, an existing own property is overwritten in place, and a
new own property is created at the end. -/
def setProp (acc : JsObject) (key : String) (v : AccValue) : JsObject :=
  if key = protoName then acc
  else if (acc.lookup key).isSome then replaceProp key v acc
  else acc ++ [(key, v)]

/-- Truthiness of a property read, as tested by `!acc[category]`. -/
def truthy : Lookup → Bool
  | Lookup.undefined => false
  | Lookup.own (AccValue.number (JsNumber.finite q)) => decide (q ≠ 0)
  | Lookup.own (AccValue.number (JsNumber.infinity _)) => true
  | Lookup.own (AccValue.number JsNumber.nan) => false
  | Lookup.own AccValue.text => true
  | Lookup.inheritedFunction => true
  | Lookup.prototypeObject => true

/-- Result of `acc[category] + amount`: addition of doubles on numbers, string
concatenation on strings, functions and objects, `NaN` on `undefined`. -/
def addAmount (cur : Lookup) (amount : ℚ) : AccValue :=
  match cur with
  | Lookup.undefined => AccValue.number JsNumber.nan
  | Lookup.own (AccValue.number v) =>
    AccValue.number (jsAdd v (JsNumber.finite amount))
  | Lookup.own AccValue.text => AccValue.text
  | Lookup.inheritedFunction => AccValue.text
  | Lookup.prototypeObject => AccValue.text

/-- Value of `Math.abs(categoryData[key])`. -/
def mathAbs : Lookup → JsNumber
  | Lookup.own (AccValue.number v) => jsAbs v
  | _ => JsNumber.nan

/-- Numeric value of a string of decimal digits. -/
def digitsValue (cs : List Char) : Nat :=
  cs.foldl (fun n c => 10 * n + (c.toNat - 48)) 0

/-- Array index denoted by a key: the key is the canonical decimal numeral
(digits only, no leading zero) of an integer at most `2^32 - 2`. -/
def arrayIndex? (key : String) : Option Nat :=
  let cs := key.data
  if cs ≠ [] ∧ cs.all Char.isDigit ∧ (cs.head? ≠ some '0' ∨ cs.length = 1)
      ∧ digitsValue cs ≤ 4294967294 then
    some (digitsValue cs)
  else none

/-- Whether a key is an array index. -/
def isArrayIndex (key : String) : Bool := (arrayIndex? key).isSome

/-- Result of `Object.keys(acc)`: array-index keys in ascending numeric order,
then the remaining keys in creation order. -/
def objectKeys (acc : JsObject) : List String :=
  let ks := acc.map Prod.fst
  (ks.filter isArrayIndex).insertionSort
      (fun a b => (arrayIndex? a).getD 0 ≤ (arrayIndex? b).getD 0)
    ++ ks.filter (fun k => !isArrayIndex k)

/-! ## Category aggregation (`App.jsx`, lines 88-100) -/

/-- The label `t.category || 'Uncategorized'`: an absent or empty category
is falsy and is replaced by the sentinel. -/
def effectiveCategory (t : Transaction) : String :=
  match t.category with
  | some c => if c = "" then "Uncategorized" else c
  | none => "Uncategorized"

/-- Body of the `reduce` callback. -/
def reduceStep (acc : JsObject) (t : Transaction) : JsObject :=
  let category := effectiveCategory t
  let acc1 := if !truthy (getProp acc category) then
      setProp acc category (AccValue.number (JsNumber.finite 0)) else acc
  setProp acc1 category (addAmount (getProp acc1 category) t.amount)

/-- The object `categoryData`. -/
def categoryData (transactions : List Transaction) : JsObject :=
  transactions.foldl reduceStep []

/-- The array `pieData`. -/
def pieData (transactions : List Transaction) : List PieEntry :=
  let acc := categoryData transactions
  (objectKeys acc).map (fun key => ⟨key, mathAbs (getProp acc key)⟩)

/-- The palette `COLORS`. -/
def COLORS : List String :=
  ["#4f46e5", "#16a34a", "#9333ea", "#e11d48", "#d97706",
   "#0369a1", "#4338ca", "#15803d", "#be185d", "#334155"]

/-- The `fill` of the `Cell` at position `index`:
`COLORS[index % COLORS.length]`, `none` standing for `undefined`. -/
def cellFill (index : Nat) : Option String :=
  COLORS[index % COLORS.length]?

/-! ## Reference notions used to state the aggregation properties -/

/-- Distinct elements of a list in order of first occurrence. -/
def firstSeen : List String → List String
  | [] => []
  | x :: xs => x :: (firstSeen xs).filter (fun y => y ≠ x)

/-- Signed sum of the amounts of the transactions whose effective category is
`c`. -/
def signedTotal (c : String) (transactions : List Transaction) : ℚ :=
  ((transactions.filter (fun t => effectiveCategory t = c)).map
    Transaction.amount).sum

/-- Sum of the amounts of the transactions whose effective category is `c`,
accumulated from `0` in collection order with the addition of doubles. -/
def doubleTotal (c : String) (transactions : List Transaction) : JsNumber :=
  ((transactions.filter (fun t => effectiveCategory t = c)).map
    Transaction.amount).foldl (fun s a => jsAdd s (JsNumber.finite a))
    (JsNumber.finite 0)

/-- Sum of the absolute amounts of the transactions whose
`category ?? "Uncategorized"` is `c`. -/
def absTotalNullish (c : String) (transactions : List Transaction) : ℚ :=
  ((transactions.filter (fun t => t.category.getD "Uncategorized" = c)).map
    (fun t => |t.amount|)).sum

/-- A label that is not the name of a property inherited from
`Object.prototype`. -/
def plainLabel (c : String) : Prop :=
  c ≠ protoName ∧ c ∉ inheritedFunctionNames

instance (c : String) : Decidable (plainLabel c) := by
  unfold plainLabel; infer_instance

/-! ## Categorization chat (`App.jsx`, lines 57-86) -/

/-- Author of a chat message. -/
inductive Role where
  | user
  | assistant
deriving DecidableEq

/-- Chat message `{ role, text }`. -/
structure ChatMessage where
  role : Role
  text : String
deriving DecidableEq

/-- The chat part of the component state. -/
structure ChatState where
  chatHistory : List ChatMessage
  userInput : String
  isTyping : Bool
deriving DecidableEq

/-- The object serialised as the body of `POST /api/categorize`. -/
structure CategorizeRequest where
  description : String
deriving DecidableEq

/-- The fields read from the parsed response body (`confidence` is `none`
when the field is `null` or absent). -/
structure CategorizeData where
  category : String
  confidence : Option ℚ

/-- What the awaits of the `try` block resume with: `fetch` (or the reading of
the body of a non-ok response) rejects with an error message, or a response
arrives with its status, its body read as text, and its body read as JSON (the
message of the error thrown instead when the body cannot be read as such an
object). -/
inductive CategorizeOutcome where
  | rejected (message : String)
  | response (status : Nat) (text : String) (json : Except String CategorizeData)

/-- Characters removed by `String.prototype.trim`: white space and line
terminators. -/
def isWhiteSpace (c : Char) : Bool :=
  c.toNat ∈ [0x9, 0xA, 0xB, 0xC, 0xD, 0x20, 0xA0, 0x1680, 0x2000, 0x2001,
    0x2002, 0x2003, 0x2004, 0x2005, 0x2006, 0x2007, 0x2008, 0x2009, 0x200A,
    0x2028, 0x2029, 0x202F, 0x205F, 0x3000, 0xFEFF]

/-- The method `trim`. -/
def trim (s : String) : String :=
  String.mk ((s.data.dropWhile isWhiteSpace).reverse.dropWhile isWhiteSpace).reverse

/-- The property `response.ok`: status in the range 200-299. -/
def responseOk (status : Nat) : Bool := decide (200 ≤ status ∧ status ≤ 299)

/-- Fixed notation of `y ≥ 0` with `fractionDigits` decimal places: the decimal
numeral of the nearest multiple of `10^(-fractionDigits)` (ties towards the
larger), left-padded with zeros so that a digit precedes the point. -/
def fixedDigits (y : ℚ) (fractionDigits : Nat) : String :=
  let n : Nat := Int.toNat ⌊y * 10 ^ fractionDigits + 1 / 2⌋
  let m := (Nat.repr n).data
  let m1 := if fractionDigits ≠ 0 then
      let padded := if m.length ≤ fractionDigits then
          List.replicate (fractionDigits + 1 - m.length) '0' ++ m else m
      padded.take (padded.length - fractionDigits)
        ++ '.' :: padded.drop (padded.length - fractionDigits)
    else m
  String.mk m1

/-- The method `toFixed(fractionDigits)` on a finite number `x`. Below
`10^21` the result is in fixed notation; from `10^21` on the runtime uses its
general number-to-string conversion, which is the parameter `numberToString`
(in the runtime, `numberToStringLarge` below). -/
def toFixed (numberToString : ℚ → String) (x : ℚ) (fractionDigits : Nat) : String :=
  let s := if x < 0 then "-" else ""
  let y := if x < 0 then -x else x
  if 10 ^ 21 ≤ y then s ++ numberToString y
  else s ++ fixedDigits y fractionDigits

/-- Whether the positive integers `a` and `b` round to the same double. -/
def sameDouble (a b : Nat) : Bool := decide (roundParts a 1 = roundParts b 1)

/-- Search for the shortest decimal significand of the integer `N`, which has
`n0` decimal digits: the least `k ≥ startK` for which some `k`-digit `s` has
`s * 10^(n - k)` rounding to the same double as `N`, the `s` closest to `N`
(the even one at a tie). The result is `(s, n)`; after `fuel` lengths the 17
leading digits are taken. -/
def shortestDigitsAux (N n0 : Nat) : Nat → Nat → Nat × Nat
  | 0, _ => (N / 10 ^ (n0 - 17), n0)
  | fuel + 1, k =>
    let unit := 10 ^ (n0 - k)
    let lo := N / unit
    let hi := lo + 1
    let loOk := sameDouble (lo * unit) N
    let hiOk := sameDouble (hi * unit) N
    let preferLo := N - lo * unit < hi * unit - N ∨
      (N - lo * unit = hi * unit - N ∧ lo % 2 = 0)
    if loOk ∧ (¬ hiOk ∨ preferLo) then (lo, n0)
    else if hiOk then (if hi = 10 ^ k then (1, n0 + 1) else (hi, n0))
    else shortestDigitsAux N n0 fuel (k + 1)

/-- The runtime's number-to-string conversion on a double `y ≥ 10^21` (an
integer): exponent notation with the shortest significand that reads back as
`y`, as in `1e+21` and `1.5e+21`. -/
def numberToStringLarge (y : ℚ) : String :=
  let N := y.num.natAbs / y.den
  let n0 := (Nat.repr N).length
  let found := shortestDigitsAux N n0 17 1
  let digits := (Nat.repr found.1).data
  let mantissa := match digits with
    | [] => []
    | [d] => [d]
    | d :: rest => d :: '.' :: rest
  String.mk mantissa ++ "e+" ++ Nat.repr (found.2 - 1)

/-- The template literal of line 79: the assistant text of a successful
categorization. -/
def categoryText (numberToString : ℚ → String) (category : String)
    (confidence : Option ℚ) : String :=
  "Category: **" ++ category ++ "** (confidence: "
    ++ toFixed numberToString (confidence.getD 0) 2 ++ ")"

/-- The `try` block after the fetch: the assistant text on success, or the
message of the error thrown. -/
def categorizeReply (numberToString : ℚ → String) :
    CategorizeOutcome → Except String String
  | CategorizeOutcome.rejected message => Except.error message
  | CategorizeOutcome.response status text json =>
    if !responseOk status then
      Except.error ("API error! status: " ++ toString status ++ " " ++ text)
    else match json with
      | Except.error message => Except.error message
      | Except.ok data =>
        Except.ok (categoryText numberToString data.category data.confidence)

/-- The synchronous part of `handleSendMessage` up to the `await`: `none` at
the early return, otherwise the state after the three setters, the captured
`newHistory`, and the request issued. -/
def handleSendMessageStart (st : ChatState) :
    Option (ChatState × List ChatMessage × CategorizeRequest) :=
  if trim st.userInput = "" ∨ st.isTyping = true then none
  else
    let newHistory := st.chatHistory ++ [⟨Role.user, st.userInput⟩]
    some (⟨newHistory, "", true⟩, newHistory, ⟨st.userInput⟩)

/-- The part of `handleSendMessage` after the `await`: `try`, `catch` and
`finally`, applied to the state at resumption. -/
def handleSendMessageResume (numberToString : ℚ → String) (st : ChatState)
    (newHistory : List ChatMessage) (outcome : CategorizeOutcome) : ChatState :=
  let st1 : ChatState := match categorizeReply numberToString outcome with
    | Except.ok assistantText =>
      { st with chatHistory := newHistory ++ [⟨Role.assistant, assistantText⟩] }
    | Except.error message =>
      { st with chatHistory := newHistory ++
          [⟨Role.assistant, "Sorry, I encountered an error: " ++ message⟩] }
  { st1 with isTyping := false }

/-- One complete run of `handleSendMessage` from state `st`, the backend
answering the request with `backend`: the state when the handler has returned
and the requests it issued. -/
def handleSendMessage (numberToString : ℚ → String)
    (backend : CategorizeRequest → CategorizeOutcome) (st : ChatState) :
    ChatState × List CategorizeRequest :=
  match handleSendMessageStart st with
  | none => (st, [])
  | some (st1, newHistory, request) =>
    (handleSendMessageResume numberToString st1 newHistory (backend request),
      [request])

/-- A number rendered with two decimal places: sign, integer digits, point,
two digits, the value rounded to the nearest hundredth. -/
def twoDecimalPlaces (p : ℚ) : String :=
  (if p < 0 then "-" else "") ++ fixedDigits |p| 2

/-- An input that is empty or consists of white space only. -/
def blank (s : String) : Bool := s.data.all isWhiteSpace

/-! ## Add-transaction form (`App.jsx`, lines 155-179 and 228) -/

/-- The draft `newTransaction`; every field is the text of a form control. -/
structure Draft where
  date : String
  description : String
  amount : String
  category : String
deriving DecidableEq

/-- The object serialised as the body of `POST /api/transactions`: the draft
with `amount` replaced by its numeric parse. -/
structure CreateBody where
  date : String
  description : String
  amount : JsNumber
  category : String
deriving DecidableEq

/-- What the awaits of the submit handler resume with. -/
inductive CreateOutcome where
  | rejected (message : String)
  | response (status : Nat) (json : Except String Transaction)

/-- The form part of the component state. -/
structure FormState where
  transactions : List Transaction
  showNewTransactionModal : Bool
  newTransaction : Draft
deriving DecidableEq

/-- Value of an `ExponentPart` at the head of `cs` (`e` or `E`, an optional
sign, at least one digit), or `0` when there is none. -/
def exponentValue (cs : List Char) : Int :=
  match cs with
  | [] => 0
  | e :: rest =>
    if e = 'e' ∨ e = 'E' then
      let signed : Bool × List Char := match rest with
        | '+' :: r => (false, r)
        | '-' :: r => (true, r)
        | r => (false, r)
      let ds := signed.2.takeWhile Char.isDigit
      if ds = [] then 0
      else if signed.1 then -(digitsValue ds : Int) else (digitsValue ds : Int)
    else 0

/-- What the scan of a numeric prefix finds: the literal `Infinity`, a decimal
literal denoting `mantissa * 10^scale`, or no numeric prefix. -/
inductive Scanned where
  | infinity
  | decimal (mantissa : Nat) (scale : Int)
  | notNumeric
deriving DecidableEq

/-- The longest prefix of `cs` that is a `StrUnsignedDecimalLiteral`:
`Infinity`, or digits with an optional fraction (at least one digit in all)
and an optional exponent part. -/
def scanUnsigned (cs : List Char) : Scanned :=
  if "Infinity".data.isPrefixOf cs then Scanned.infinity
  else
    let intDigits := cs.takeWhile Char.isDigit
    let rest := cs.dropWhile Char.isDigit
    let frac : List Char × List Char := match rest with
      | '.' :: r => (r.takeWhile Char.isDigit, r.dropWhile Char.isDigit)
      | r => ([], r)
    if intDigits = [] ∧ frac.1 = [] then Scanned.notNumeric
    else Scanned.decimal (digitsValue (intDigits ++ frac.1))
      (exponentValue frac.2 - (frac.1.length : Int))

/-- The sign and the unsigned literal at the head of `s`, leading white space
skipped. -/
def scanFloat (s : String) : Bool × Scanned :=
  match s.data.dropWhile isWhiteSpace with
  | '+' :: r => (false, scanUnsigned r)
  | '-' :: r => (true, scanUnsigned r)
  | r => (false, scanUnsigned r)

/-- The number value of a scanned literal: its mathematical value rounded to
the nearest double. -/
def scannedValue (negative : Bool) : Scanned → JsNumber
  | Scanned.infinity => JsNumber.infinity negative
  | Scanned.decimal mantissa scale =>
    roundRatio negative (mantissa * 10 ^ scale.toNat) (10 ^ (-scale).toNat)
  | Scanned.notNumeric => JsNumber.nan

/-- The global `parseFloat`: leading white space is skipped, then the longest
prefix that is a `StrDecimalLiteral` is evaluated and rounded to the nearest
double; `NaN` when there is no such prefix. -/
def parseFloat (s : String) : JsNumber :=
  scannedValue (scanFloat s).1 (scanFloat s).2

/-- The draft the submit handler installs on success, `today` being the value
of `new Date().toISOString().split('T')[0]` at that moment. -/
def defaultDraft (today : String) : Draft := ⟨today, "", "", ""⟩

/-- The body built by the submit handler from the draft. -/
def createBody (d : Draft) : CreateBody :=
  ⟨d.date, d.description, parseFloat d.amount, d.category⟩

/-- One complete run of the `onSubmit` handler of the add-transaction form:
the state when the handler has returned and the requests it issued. -/
def onSubmit (today : String) (backend : CreateBody → CreateOutcome)
    (st : FormState) : FormState × List CreateBody :=
  let body := createBody st.newTransaction
  match backend body with
  | CreateOutcome.rejected _ => (st, [body])
  | CreateOutcome.response status json =>
    if !responseOk status then (st, [body])
    else match json with
      | Except.error _ => (st, [body])
      | Except.ok result =>
        (⟨st.transactions ++ [result], false, defaultDraft today⟩, [body])

/-- The `onClick` handler of the Cancel button. -/
def onCancel (st : FormState) : FormState :=
  { st with showNewTransactionModal := false }

/-! ## Sample inputs -/

/-- Two transactions of one category with opposite signs. -/
def mixedSigns : List Transaction :=
  [⟨1, "2024-01-10", "Salary", 5, some "A"⟩, ⟨2, "2024-01-11", "Refund", -3, some "A"⟩]

/-- One transaction whose category is the empty string. -/
def emptyLabel : List Transaction :=
  [⟨1, "2024-01-10", "Cash", 1, some ""⟩]

/-- One transaction whose category is `constructor`. -/
def constructorLabel : List Transaction :=
  [⟨1, "2024-01-10", "Cash", 5, some "constructor"⟩]

/-- One transaction whose category is `toString`. -/
def toStringLabel : List Transaction :=
  [⟨1, "2024-01-10", "Cash", 5, some "toString"⟩]

/-- One transaction whose category is `__proto__`. -/
def protoLabel : List Transaction :=
  [⟨1, "2024-01-10", "Cash", 5, some "__proto__"⟩]

/-- A transaction with category `b` followed by one with category `1`. -/
def numericLabel : List Transaction :=
  [⟨1, "2024-01-10", "Cash", 5, some "b"⟩, ⟨2, "2024-01-11", "Card", -3, some "1"⟩]

/-- Two transactions of one category whose amounts are the doubles nearest to
0.1 and 0.2. -/
def tenths : List Transaction :=
  [⟨1, "2024-01-10", "Tea", 3602879701896397 / 36028797018963968, some "A"⟩,
   ⟨2, "2024-01-11", "Bun", 3602879701896397 / 18014398509481984, some "A"⟩]

/-- A transaction with category `Housing` followed by one without category. -/
def twoLabels : List Transaction :=
  [⟨1, "2024-01-15", "Rent", -1500, some "Housing"⟩, ⟨2, "2024-01-16", "Misc", 20, none⟩]

/-! ## Lemmas on the object operations -/

theorem keys_replaceProp (key : String) (v : AccValue) (acc : JsObject) :
    (replaceProp key v acc).map Prod.fst = acc.map Prod.fst := by
  induction acc with
  | nil => rfl
  | cons p rest ih =>
    obtain ⟨k, w⟩ := p
    by_cases h : k = key
    · simp [replaceProp, h]
    · simp [replaceProp, h, ih]

theorem lookup_isSome_iff (key : String) (acc : JsObject) :
    (acc.lookup key).isSome = true ↔ key ∈ acc.map Prod.fst := by
  induction acc with
  | nil => simp
  | cons p rest ih =>
    obtain ⟨k, w⟩ := p
    by_cases h : key = k
    · simp [List.lookup, h]
    · have h2 : (key == k) = false := by simpa using h
      simp [List.lookup, h2, ih, h]

theorem lookup_replaceProp (key k : String) (v : AccValue) (acc : JsObject)
    (h : (acc.lookup key).isSome = true) :
    (replaceProp key v acc).lookup k =
      if k = key then some v else acc.lookup k := by
  induction acc with
  | nil => simp at h
  | cons p rest ih =>
    obtain ⟨k0, w⟩ := p
    by_cases h0 : k0 = key
    · subst h0
      by_cases hk : k = k0
      · simp [replaceProp, List.lookup, hk]
      · have h2 : (k == k0) = false := by simpa using hk
        simp [replaceProp, List.lookup, hk, h2]
    · have h1 : (key == k0) = false := by
        simpa using (fun e : key = k0 => h0 e.symm)
      have hr : (rest.lookup key).isSome = true := by
        simpa [List.lookup, h1] using h
      by_cases hk : k = k0
      · have hkk : ¬ k = key := fun e => h0 (hk.symm.trans e)
        simp [replaceProp, h0, List.lookup, hk]
      · have h2 : (k == k0) = false := by simpa using hk
        simp [replaceProp, h0, List.lookup, h2, ih hr]

theorem lookup_append_singleton (key k : String) (v : AccValue) (acc : JsObject)
    (h : (acc.lookup key).isSome = false) :
    (acc ++ [(key, v)]).lookup k = if k = key then some v else acc.lookup k := by
  induction acc with
  | nil =>
    by_cases hk : k = key
    · simp [List.lookup, hk]
    · have h2 : (k == key) = false := by simpa using hk
      simp [List.lookup, hk, h2]
  | cons p rest ih =>
    obtain ⟨k0, w⟩ := p
    have h0 : ¬ key = k0 := by
      intro e; subst e; simp [List.lookup] at h
    have h1 : (key == k0) = false := by simpa using h0
    have hr : (rest.lookup key).isSome = false := by
      simpa [List.lookup, h1] using h
    by_cases hk : k = k0
    · have hkk : ¬ k = key := fun e => h0 (e.symm.trans hk)
      have hkk2 : ¬ k0 = key := fun e => h0 e.symm
      simp [List.lookup, hk, hkk2]
    · have h2 : (k == k0) = false := by simpa using hk
      simp [List.lookup, h2, ih hr]

theorem lookup_setProp (acc : JsObject) (key k : String) (v : AccValue)
    (hp : key ≠ protoName) :
    (setProp acc key v).lookup k = if k = key then some v else acc.lookup k := by
  unfold setProp
  rw [if_neg hp]
  cases h : (acc.lookup key).isSome with
  | true => simpa using lookup_replaceProp key k v acc h
  | false => simpa using lookup_append_singleton key k v acc h

theorem keys_setProp (acc : JsObject) (key : String) (v : AccValue)
    (hp : key ≠ protoName) :
    (setProp acc key v).map Prod.fst =
      if key ∈ acc.map Prod.fst then acc.map Prod.fst
      else acc.map Prod.fst ++ [key] := by
  unfold setProp
  rw [if_neg hp]
  cases h : (acc.lookup key).isSome with
  | true =>
    have hm := (lookup_isSome_iff key acc).1 h
    simp only [if_true, keys_replaceProp, if_pos hm]
  | false =>
    have hm : ¬ key ∈ acc.map Prod.fst := by
      intro hc
      have := (lookup_isSome_iff key acc).2 hc
      rw [h] at this; exact absurd this (by decide)
    rw [if_neg hm]; simp

/-! ## Lemmas on first-seen order and totals -/

theorem mem_firstSeen (y : String) (xs : List String) :
    y ∈ firstSeen xs ↔ y ∈ xs := by
  induction xs with
  | nil => simp [firstSeen]
  | cons x xs ih =>
    by_cases h : y = x
    · simp [firstSeen, h]
    · simp [firstSeen, h, List.mem_filter, ih]

theorem nodup_firstSeen (xs : List String) : (firstSeen xs).Nodup := by
  induction xs with
  | nil => simp [firstSeen]
  | cons x xs ih =>
    simp only [firstSeen, List.nodup_cons]
    refine ⟨?_, ih.filter _⟩
    simp [List.mem_filter]

theorem firstSeen_snoc (xs : List String) (x : String) :
    firstSeen (xs ++ [x]) =
      if x ∈ xs then firstSeen xs else firstSeen xs ++ [x] := by
  induction xs with
  | nil => simp [firstSeen]
  | cons y xs ih =>
    have e : firstSeen (y :: xs ++ [x]) =
        y :: (firstSeen (xs ++ [x])).filter (fun z => z ≠ y) := rfl
    rw [e, ih]
    simp only [firstSeen]
    by_cases hxy : x = y
    · subst hxy
      by_cases hx : x ∈ xs
      · simp [hx]
      · simp [hx, List.filter_append]
    · by_cases hx : x ∈ xs
      · simp [hx]
      · have : ¬ x ∈ y :: xs := by simp [hxy, hx]
        simp [hx, hxy, List.filter_append]

theorem signedTotal_snoc (c : String) (pre : List Transaction) (t : Transaction) :
    signedTotal c (pre ++ [t]) =
      signedTotal c pre + (if effectiveCategory t = c then t.amount else 0) := by
  unfold signedTotal
  by_cases h : effectiveCategory t = c
  · simp [List.filter_append, List.filter_cons, h]
  · simp [List.filter_append, List.filter_cons, h]

theorem signedTotal_eq_zero (c : String) (txs : List Transaction)
    (h : c ∉ txs.map effectiveCategory) : signedTotal c txs = 0 := by
  unfold signedTotal
  have : txs.filter (fun t => effectiveCategory t = c) = [] := by
    rw [List.filter_eq_nil_iff]
    intro t ht hc
    apply h
    simp only [List.mem_map]
    exact ⟨t, ht, by simpa using hc⟩
  simp [this]

/-! ## Lemmas on the reduce callback -/

theorem reduceStep_proto (acc : JsObject) (t : Transaction)
    (h : effectiveCategory t = protoName) : reduceStep acc t = acc := by
  simp [reduceStep, h, setProp]

theorem keys_reduceStep (acc : JsObject) (t : Transaction)
    (hp : effectiveCategory t ≠ protoName) :
    (reduceStep acc t).map Prod.fst =
      if effectiveCategory t ∈ acc.map Prod.fst then acc.map Prod.fst
      else acc.map Prod.fst ++ [effectiveCategory t] := by
  unfold reduceStep
  simp only
  rw [keys_setProp _ _ _ hp]
  by_cases ht : truthy (getProp acc (effectiveCategory t)) = true
  · have e : (if (!truthy (getProp acc (effectiveCategory t))) = true then
        setProp acc (effectiveCategory t) (AccValue.number (JsNumber.finite 0)) else acc) = acc := by
      simp [ht]
    rw [e]
  · have e : (if (!truthy (getProp acc (effectiveCategory t))) = true then
        setProp acc (effectiveCategory t) (AccValue.number (JsNumber.finite 0)) else acc)
        = setProp acc (effectiveCategory t) (AccValue.number (JsNumber.finite 0)) := by
      simp [ht]
    rw [e, keys_setProp _ _ _ hp]
    by_cases hm : effectiveCategory t ∈ acc.map Prod.fst
    · simp [hm]
    · simp [hm]

theorem lookup_reduceStep_ne (acc : JsObject) (t : Transaction) (k : String)
    (hk : k ≠ effectiveCategory t) :
    (reduceStep acc t).lookup k = acc.lookup k := by
  by_cases hp : effectiveCategory t = protoName
  · rw [reduceStep_proto acc t hp]
  · unfold reduceStep
    simp only
    rw [lookup_setProp _ _ _ _ hp, if_neg hk]
    by_cases ht : truthy (getProp acc (effectiveCategory t)) = true
    · simp [ht]
    · simp only [ht, Bool.not_false, if_true]
      rw [lookup_setProp _ _ _ _ hp, if_neg hk]

theorem lookup_reduceStep_none (acc : JsObject) (t : Transaction)
    (hpl : plainLabel (effectiveCategory t))
    (h : acc.lookup (effectiveCategory t) = none) :
    (reduceStep acc t).lookup (effectiveCategory t) =
      some (AccValue.number (jsAdd (JsNumber.finite 0) (JsNumber.finite t.amount))) := by
  obtain ⟨hp, hf⟩ := hpl
  have hg : getProp acc (effectiveCategory t) = Lookup.undefined := by
    simp [getProp, hp, hf, h]
  unfold reduceStep
  simp only [hg, truthy, Bool.not_false, if_true]
  rw [lookup_setProp _ _ _ _ hp, if_pos rfl]
  have hg1 : getProp (setProp acc (effectiveCategory t)
      (AccValue.number (JsNumber.finite 0)))
      (effectiveCategory t) = Lookup.own (AccValue.number (JsNumber.finite 0)) := by
    simp [getProp, hp, lookup_setProp _ _ _ _ hp]
  rw [hg1]
  rfl

theorem lookup_reduceStep_number (acc : JsObject) (t : Transaction) (v : JsNumber)
    (hpl : plainLabel (effectiveCategory t)) (hv : v ≠ JsNumber.nan)
    (h : acc.lookup (effectiveCategory t) = some (AccValue.number v)) :
    (reduceStep acc t).lookup (effectiveCategory t) =
      some (AccValue.number (jsAdd v (JsNumber.finite t.amount))) := by
  obtain ⟨hp, _⟩ := hpl
  have hg : getProp acc (effectiveCategory t) = Lookup.own (AccValue.number v) := by
    simp [getProp, hp, h]
  have hg1 : getProp (setProp acc (effectiveCategory t)
      (AccValue.number (JsNumber.finite 0)))
      (effectiveCategory t) = Lookup.own (AccValue.number (JsNumber.finite 0)) := by
    simp [getProp, hp, lookup_setProp _ _ _ _ hp]
  unfold reduceStep
  cases v with
  | nan => exact absurd rfl hv
  | infinity s =>
    simp only [hg, truthy, Bool.not_true, Bool.false_eq_true, if_false]
    rw [lookup_setProp _ _ _ _ hp, if_pos rfl]
    rfl
  | finite q =>
    by_cases hq : q = 0
    · subst hq
      simp only [hg, truthy, ne_eq, not_true_eq_false, decide_False, Bool.not_false, if_true]
      rw [lookup_setProp _ _ _ _ hp, if_pos rfl, hg1]
      rfl
    · simp only [hg, truthy, ne_eq, hq, not_false_eq_true, decide_True, Bool.not_true,
        Bool.false_eq_true, if_false]
      rw [lookup_setProp _ _ _ _ hp, if_pos rfl]
      rfl

/-! ## Lemmas on double arithmetic -/

theorem bitLengthAux_spec (fuel n : Nat) (h : n ≤ fuel) (hn : 0 < n) :
    1 ≤ bitLengthAux fuel n ∧ 2 ^ (bitLengthAux fuel n - 1) ≤ n ∧
      n < 2 ^ (bitLengthAux fuel n) := by
  induction fuel generalizing n with
  | zero => omega
  | succ fuel ih =>
    have hne : n ≠ 0 := by omega
    simp only [bitLengthAux, hne, if_false]
    by_cases h2 : n / 2 = 0
    · have h1 : n = 1 := by omega
      subst h1
      cases fuel with
      | zero => simp [bitLengthAux]
      | succ f => simp [bitLengthAux]
    · have hle : n / 2 ≤ fuel := by omega
      obtain ⟨hm1, hlo, hhi⟩ := ih (n / 2) hle (by omega)
      refine ⟨by omega, ?_, ?_⟩
      · simp only [Nat.add_sub_cancel]
        have e : 2 ^ (bitLengthAux fuel (n / 2)) = 2 * 2 ^ (bitLengthAux fuel (n / 2) - 1) := by
          rw [← pow_succ']
          congr 1
          omega
        omega
      · rw [pow_succ]
        omega

theorem bitLength_spec (n : Nat) (hn : 0 < n) :
    1 ≤ bitLength n ∧ 2 ^ (bitLength n - 1) ≤ n ∧ n < 2 ^ (bitLength n) :=
  bitLengthAux_spec n n le_rfl hn

theorem bitLength_le (n : Nat) (hn : 0 < n) (b : Nat) (h : n < 2 ^ b) : bitLength n ≤ b := by
  obtain ⟨h1, hlo, _⟩ := bitLength_spec n hn
  by_contra hc
  have : b ≤ bitLength n - 1 := by omega
  have := Nat.pow_le_pow_right (by decide : 0 < 2) this
  omega

theorem roundParts_nat (p : Nat) (hp : 0 < p) (h : p < 2 ^ 53) :
    roundParts p 1 = some (p * 2 ^ (53 - bitLength p), (bitLength p : Int) - 53) := by
  obtain ⟨h1, hlo, hhi⟩ := bitLength_spec p hp
  have hL := bitLength_le p hp 53 h
  have hb1 : bitLength 1 = 1 := by decide
  have he : floorLog2 p 1 = (bitLength p : Int) - 1 := by
    unfold floorLog2
    simp only [hb1]
    have e1 : (-((bitLength p : Int) - ((1 : Nat) : Int))).toNat = 0 := by omega
    have e2 : ((bitLength p : Int) - ((1 : Nat) : Int)).toNat = bitLength p - 1 := by omega
    rw [e1, e2]
    simp only [pow_zero, mul_one, one_mul, ge_iff_le]
    rw [if_pos hlo]
    simp
  unfold roundParts
  simp only [he]
  have ek : max ((bitLength p : Int) - 1) (-1022) - 52 = (bitLength p : Int) - 53 := by omega
  rw [ek]
  have e1 : (-((bitLength p : Int) - 53)).toNat = 53 - bitLength p := by omega
  have e2 : ((bitLength p : Int) - 53).toNat = 0 := by omega
  rw [e1, e2]
  have hr : roundHalfEven (p * 2 ^ (53 - bitLength p)) (1 * 2 ^ 0) = p * 2 ^ (53 - bitLength p) := by
    simp [roundHalfEven, Nat.mod_one]
  rw [hr]
  have hlt : p * 2 ^ (53 - bitLength p) < 2 ^ 53 := by
    have h53 : (2 : Nat) ^ 53 = 2 ^ bitLength p * 2 ^ (53 - bitLength p) := by
      rw [← pow_add]
      congr 1
      omega
    rw [h53]
    exact Nat.mul_lt_mul_of_pos_right hhi (by positivity)
  have hne : ¬ p * 2 ^ (53 - bitLength p) = 2 ^ 53 := by omega
  simp only [hne, if_false]
  rw [if_neg]
  omega

theorem roundToDouble_intCast (z : ℤ) (h : z.natAbs < 2 ^ 53) :
    roundToDouble (z : ℚ) = JsNumber.finite z := by
  unfold roundToDouble roundRatio
  simp only [Rat.num_intCast, Rat.den_intCast]
  by_cases hz : z = 0
  · subst hz; simp
  · have hp : 0 < z.natAbs := Int.natAbs_pos.2 hz
    rw [if_neg (by omega), roundParts_nat _ hp h]
    simp only
    obtain ⟨h1, _, _⟩ := bitLength_spec _ hp
    have hL := bitLength_le _ hp 53 h
    have hcancel : ((z.natAbs * 2 ^ (53 - bitLength z.natAbs) : Nat) : ℚ)
        * 2 ^ ((bitLength z.natAbs : Int) - 53) = (z.natAbs : ℚ) := by
      push_cast
      rw [mul_assoc, ← zpow_natCast, ← zpow_add₀ (by norm_num : (2 : ℚ) ≠ 0)]
      have : ((53 - bitLength z.natAbs : Nat) : Int) + ((bitLength z.natAbs : Int) - 53) = 0 := by
        omega
      rw [this]; simp
    rw [hcancel]
    congr 1
    by_cases hneg : z < 0
    · have : ((z : ℚ) < 0) := by exact_mod_cast hneg
      simp only [this, decide_True, if_true]
      rw [Nat.cast_natAbs, Int.cast_abs, abs_of_neg this]; ring
    · have : ¬ ((z : ℚ) < 0) := by exact_mod_cast hneg
      simp only [this, decide_False, Bool.false_eq_true, if_false]
      rw [Nat.cast_natAbs, Int.cast_abs, abs_of_nonneg (not_lt.1 this)]; ring

theorem roundToDouble_of_den_one (q : ℚ) (hd : q.den = 1) (h : |q| < 2 ^ 53) :
    roundToDouble q = JsNumber.finite q := by
  have hq : ((q.num : ℤ) : ℚ) = q := Rat.coe_int_num_of_den_eq_one hd
  have hb : q.num.natAbs < 2 ^ 53 := by
    have h1 : |((q.num : ℤ) : ℚ)| < 2 ^ 53 := by rw [hq]; exact h
    rw [← Int.cast_abs] at h1
    have h2 : |q.num| < 2 ^ 53 := by exact_mod_cast h1
    rw [Int.abs_eq_natAbs] at h2
    exact_mod_cast h2
  have := roundToDouble_intCast q.num hb
  rw [hq] at this
  exact this

theorem den_add_of_den_one (a b : ℚ) (ha : a.den = 1) (hb : b.den = 1) :
    (a + b).den = 1 := by
  have e : a + b = ((a.num + b.num : ℤ) : ℚ) := by
    rw [Int.cast_add, Rat.coe_int_num_of_den_eq_one ha, Rat.coe_int_num_of_den_eq_one hb]
  rw [e, Rat.den_intCast]

/-- Adding integers whose absolute values total less than `2^53` is exact at
every step. -/
theorem foldl_jsAdd_exact (amounts : List ℚ) (x : ℚ) (hx : x.den = 1)
    (hint : ∀ a ∈ amounts, a.den = 1)
    (hb : |x| + (amounts.map (fun a => |a|)).sum < 2 ^ 53) :
    amounts.foldl (fun s a => jsAdd s (JsNumber.finite a)) (JsNumber.finite x)
      = JsNumber.finite (x + amounts.sum) := by
  induction amounts generalizing x with
  | nil => simp
  | cons a rest ih =>
    simp only [List.map_cons, List.sum_cons] at hb
    have ha : a.den = 1 := hint a (List.mem_cons_self _ _)
    have hrest : ∀ b ∈ rest, b.den = 1 := fun b hb => hint b (List.mem_cons_of_mem _ hb)
    have hnn : 0 ≤ (rest.map (fun a => |a|)).sum := by
      apply List.sum_nonneg
      intro y hy
      obtain ⟨z, _, rfl⟩ := List.mem_map.1 hy
      exact abs_nonneg z
    have htri : |x + a| ≤ |x| + |a| := abs_add x a
    have hstep : jsAdd (JsNumber.finite x) (JsNumber.finite a) = JsNumber.finite (x + a) :=
      roundToDouble_of_den_one (x + a) (den_add_of_den_one x a hx ha) (by linarith)
    simp only [List.foldl_cons, hstep]
    rw [ih (x + a) (den_add_of_den_one x a hx ha) hrest (by linarith)]
    simp only [List.sum_cons]
    congr 1
    ring

theorem roundRatio_ne_nan (negative : Bool) (p q : Nat) :
    roundRatio negative p q ≠ JsNumber.nan := by
  unfold roundRatio
  by_cases hp : p = 0
  · simp [hp]
  · rw [if_neg hp]
    cases roundParts p q with
    | none => simp
    | some nk => obtain ⟨n, k⟩ := nk; simp

theorem jsAdd_finite_ne_nan (v : JsNumber) (a : ℚ) (hv : v ≠ JsNumber.nan) :
    jsAdd v (JsNumber.finite a) ≠ JsNumber.nan := by
  cases v with
  | nan => exact absurd rfl hv
  | infinity s => simp [jsAdd]
  | finite q => exact roundRatio_ne_nan _ _ _

theorem foldl_jsAdd_ne_nan (amounts : List ℚ) (v : JsNumber) (hv : v ≠ JsNumber.nan) :
    amounts.foldl (fun s a => jsAdd s (JsNumber.finite a)) v ≠ JsNumber.nan := by
  induction amounts generalizing v with
  | nil => exact hv
  | cons a rest ih => exact ih _ (jsAdd_finite_ne_nan v a hv)

theorem doubleTotal_ne_nan (c : String) (txs : List Transaction) :
    doubleTotal c txs ≠ JsNumber.nan :=
  foldl_jsAdd_ne_nan _ _ (by simp)

theorem doubleTotal_snoc (c : String) (pre : List Transaction) (t : Transaction) :
    doubleTotal c (pre ++ [t]) =
      if effectiveCategory t = c then
        jsAdd (doubleTotal c pre) (JsNumber.finite t.amount)
      else doubleTotal c pre := by
  unfold doubleTotal
  by_cases h : effectiveCategory t = c
  · simp [List.filter_append, List.filter_cons, h, List.foldl_append]
  · simp [List.filter_append, List.filter_cons, h]

theorem doubleTotal_eq_zero (c : String) (txs : List Transaction)
    (h : c ∉ txs.map effectiveCategory) : doubleTotal c txs = JsNumber.finite 0 := by
  unfold doubleTotal
  have : txs.filter (fun t => effectiveCategory t = c) = [] := by
    rw [List.filter_eq_nil_iff]
    intro t ht hc
    apply h
    simp only [List.mem_map]
    exact ⟨t, ht, by simpa using hc⟩
  simp [this]

theorem categoryData_snoc (pre : List Transaction) (t : Transaction) :
    categoryData (pre ++ [t]) = reduceStep (categoryData pre) t := by
  simp [categoryData, List.foldl_append]

/-- Own keys of `categoryData`, in creation order: the distinct effective
categories other than `__proto__`, in order of first occurrence. -/
theorem keys_categoryData (txs : List Transaction) :
    (categoryData txs).map Prod.fst =
      firstSeen ((txs.map effectiveCategory).filter (fun c => c ≠ protoName)) := by
  induction txs using List.reverseRecOn with
  | nil => rfl
  | append_singleton pre t ih =>
    rw [categoryData_snoc]
    by_cases hp : effectiveCategory t = protoName
    · rw [reduceStep_proto _ _ hp, ih]
      simp [List.filter_append, hp]
    · rw [keys_reduceStep _ _ hp, ih]
      have e : ((pre ++ [t]).map effectiveCategory).filter (fun c => c ≠ protoName)
          = (pre.map effectiveCategory).filter (fun c => c ≠ protoName)
            ++ [effectiveCategory t] := by
        simp [List.filter_append, hp]
      rw [e, firstSeen_snoc]
      simp only [mem_firstSeen]

/-- Value held by `categoryData` under a label that is not inherited from
`Object.prototype`: the running total of that label when it occurs, no own
property otherwise. -/
theorem lookup_categoryData (txs : List Transaction) (c : String)
    (hc : plainLabel c) :
    (categoryData txs).lookup c =
      if c ∈ txs.map effectiveCategory then
        some (AccValue.number (doubleTotal c txs)) else none := by
  induction txs using List.reverseRecOn with
  | nil => simp [categoryData]
  | append_singleton pre t ih =>
    rw [categoryData_snoc, doubleTotal_snoc]
    by_cases hct : effectiveCategory t = c
    · subst hct
      have hm : effectiveCategory t ∈ (pre ++ [t]).map effectiveCategory := by simp
      rw [if_pos hm, if_pos rfl]
      by_cases hpre : effectiveCategory t ∈ pre.map effectiveCategory
      · rw [if_pos hpre] at ih
        rw [lookup_reduceStep_number _ _ _ hc (doubleTotal_ne_nan _ _) ih]
      · rw [if_neg hpre] at ih
        rw [lookup_reduceStep_none _ _ hc ih, doubleTotal_eq_zero _ _ hpre]
    · have hne : c ≠ effectiveCategory t := fun e => hct e.symm
      rw [lookup_reduceStep_ne _ _ _ hne, ih, if_neg hct]
      have : c ∈ (pre ++ [t]).map effectiveCategory ↔ c ∈ pre.map effectiveCategory := by
        simp only [List.map_append, List.map_cons, List.map_nil, List.mem_append,
          List.mem_singleton]
        constructor
        · rintro (h | h)
          · exact h
          · exact absurd h hne
        · exact Or.inl
      by_cases hpre : c ∈ pre.map effectiveCategory
      · rw [if_pos hpre, if_pos (this.2 hpre)]
      · rw [if_neg hpre, if_neg (fun h => hpre (this.1 h))]

/-- The keys listed by `Object.keys` are a rearrangement of the own keys. -/
theorem objectKeys_perm (acc : JsObject) :
    (objectKeys acc).Perm (acc.map Prod.fst) := by
  unfold objectKeys
  simp only
  refine (List.Perm.append_right _ (List.perm_insertionSort _ _)).trans ?_
  exact List.filter_append_perm isArrayIndex (acc.map Prod.fst)

/-- Without array-index keys, `Object.keys` lists the own keys in creation
order. -/
theorem objectKeys_eq_keys (acc : JsObject)
    (h : ∀ k ∈ acc.map Prod.fst, isArrayIndex k = false) :
    objectKeys acc = acc.map Prod.fst := by
  unfold objectKeys
  simp only
  have h1 : (acc.map Prod.fst).filter isArrayIndex = [] := by
    rw [List.filter_eq_nil_iff]
    intro k hk
    simp [h k hk]
  have h2 : (acc.map Prod.fst).filter (fun k => !isArrayIndex k) = acc.map Prod.fst := by
    rw [List.filter_eq_self]
    intro k hk
    simp [h k hk]
  rw [h1, h2]
  simp

/-- Membership in `pieData`, unfolded. -/
theorem mem_pieData (txs : List Transaction) (e : PieEntry) :
    e ∈ pieData txs ↔
      e.name ∈ (categoryData txs).map Prod.fst ∧
        e.value = mathAbs (getProp (categoryData txs) e.name) := by
  unfold pieData
  constructor
  · intro h
    obtain ⟨k, hk, rfl⟩ := List.mem_map.1 h
    exact ⟨(objectKeys_perm _).mem_iff.1 hk, rfl⟩
  · rintro ⟨hk, hv⟩
    refine List.mem_map.2 ⟨e.name, (objectKeys_perm _).mem_iff.2 hk, ?_⟩
    cases e
    simp_all

/-- Value of the entry of `pieData` under a label that is not inherited from
`Object.prototype`. -/
theorem pieData_value (txs : List Transaction) (e : PieEntry)
    (he : e ∈ pieData txs) (hc : plainLabel e.name) :
    e.value = jsAbs (doubleTotal e.name txs) := by
  obtain ⟨hk, hv⟩ := (mem_pieData txs e).1 he
  rw [keys_categoryData, mem_firstSeen, List.mem_filter] at hk
  have hl := lookup_categoryData txs e.name hc
  rw [if_pos hk.1] at hl
  rw [hv]
  simp [getProp, hc.1, hl, mathAbs]

/-! ## Evaluation of the aggregation on the sample inputs -/

theorem roundToDouble_one : roundToDouble 1 = JsNumber.finite 1 := by
  simpa using roundToDouble_intCast 1 (by decide)

theorem roundToDouble_two : roundToDouble 2 = JsNumber.finite 2 := by
  simpa using roundToDouble_intCast 2 (by decide)

theorem roundToDouble_five : roundToDouble 5 = JsNumber.finite 5 := by
  simpa using roundToDouble_intCast 5 (by decide)

theorem roundToDouble_twenty : roundToDouble 20 = JsNumber.finite 20 := by
  simpa using roundToDouble_intCast 20 (by decide)

theorem roundToDouble_rent : roundToDouble (-1500) = JsNumber.finite (-1500) := by
  simpa using roundToDouble_intCast (-1500) (by decide)

theorem pieData_mixedSigns : pieData mixedSigns = [⟨"A", JsNumber.finite 2⟩] := by
  have h : roundToDouble ((5 : ℚ) + -3) = JsNumber.finite 2 := by
    norm_num [roundToDouble_two]
  simp [pieData, mixedSigns, categoryData, reduceStep, effectiveCategory, getProp, setProp,
    replaceProp, truthy, addAmount, mathAbs, objectKeys, protoName, inheritedFunctionNames,
    isArrayIndex, arrayIndex?, List.lookup, jsAdd, jsAbs, roundToDouble_five, h]

theorem pieData_emptyLabel :
    pieData emptyLabel = [⟨"Uncategorized", JsNumber.finite 1⟩] := by
  simp [pieData, emptyLabel, categoryData, reduceStep, effectiveCategory, getProp, setProp,
    replaceProp, truthy, addAmount, mathAbs, objectKeys, protoName, inheritedFunctionNames,
    isArrayIndex, arrayIndex?, List.lookup, jsAdd, jsAbs, roundToDouble_one]

theorem pieData_constructorLabel :
    pieData constructorLabel = [⟨"constructor", JsNumber.nan⟩] := by
  decide

theorem pieData_toStringLabel :
    pieData toStringLabel = [⟨"toString", JsNumber.nan⟩] := by
  decide

theorem pieData_protoLabel : pieData protoLabel = [] := by
  decide

theorem pieData_numericLabel :
    (pieData numericLabel).map PieEntry.name = ["1", "b"] := by
  decide

theorem pieData_twoLabels :
    pieData twoLabels =
      [⟨"Housing", JsNumber.finite 1500⟩, ⟨"Uncategorized", JsNumber.finite 20⟩] := by
  simp [pieData, twoLabels, categoryData, reduceStep, effectiveCategory, getProp, setProp,
    replaceProp, truthy, addAmount, mathAbs, objectKeys, protoName, inheritedFunctionNames,
    isArrayIndex, arrayIndex?, List.lookup, jsAdd, jsAbs, roundToDouble_rent,
    roundToDouble_twenty]

theorem roundToDouble_of_parts (x : ℚ) (p q n : Nat) (k : Int) (hx : 0 < x)
    (hnum : x.num = (p : Int)) (hden : x.den = q)
    (h : roundParts p q = some (n, k)) :
    roundToDouble x = JsNumber.finite ((n : ℚ) * 2 ^ k) := by
  have hneg : ¬ x < 0 := not_lt.2 hx.le
  have hp : p ≠ 0 := by
    intro h0
    rw [h0] at hnum
    have : x.num = 0 := by simpa using hnum
    rw [Rat.num_eq_zero] at this
    exact absurd this hx.ne'
  simp [roundToDouble, roundRatio, hnum, hden, hneg, hp, h]

theorem pieData_tenths :
    pieData tenths = [⟨"A", JsNumber.finite (1351079888211149 / 4503599627370496)⟩] := by
  have h1 : roundToDouble (3602879701896397 / 36028797018963968)
      = JsNumber.finite (3602879701896397 / 36028797018963968) := by
    rw [roundToDouble_of_parts _ 3602879701896397 36028797018963968 7205759403792794 (-56)
      (by norm_num) (by norm_num) (by norm_num) (by decide)]
    norm_num
  have h2 : roundToDouble ((3602879701896397 / 36028797018963968 : ℚ)
      + 3602879701896397 / 18014398509481984)
      = JsNumber.finite (1351079888211149 / 4503599627370496) := by
    rw [roundToDouble_of_parts _ 10808639105689191 36028797018963968 5404319552844596 (-54)
      (by norm_num) (by norm_num) (by norm_num) (by decide)]
    norm_num
  have h3 : ¬ ((3602879701896397 / 36028797018963968 : ℚ) = 0) := by norm_num
  simp [pieData, tenths, categoryData, reduceStep, effectiveCategory, getProp, setProp,
    replaceProp, truthy, addAmount, mathAbs, objectKeys, protoName, inheritedFunctionNames,
    isArrayIndex, arrayIndex?, List.lookup, jsAdd, jsAbs, h1, h2, h3]
  norm_num

theorem sum_abs_filter_le (p : Transaction → Bool) (txs : List Transaction) :
    ((txs.filter p).map (fun t => |t.amount|)).sum
      ≤ (txs.map (fun t => |t.amount|)).sum := by
  induction txs with
  | nil => simp
  | cons t rest ih =>
    by_cases hp : p t = true
    · simp only [List.filter_cons, hp, if_true, List.map_cons, List.sum_cons]
      linarith
    · simp only [List.filter_cons, hp, Bool.false_eq_true, if_false, List.map_cons,
        List.sum_cons]
      have := abs_nonneg t.amount
      linarith

/-- For integer amounts whose absolute values total less than `2^53`, the
running total of a category is its exact signed sum. -/
theorem doubleTotal_exact (c : String) (txs : List Transaction)
    (hint : ∀ t ∈ txs, t.amount.den = 1)
    (hb : (txs.map (fun t => |t.amount|)).sum < 2 ^ 53) :
    doubleTotal c txs = JsNumber.finite (signedTotal c txs) := by
  unfold doubleTotal signedTotal
  have hle := sum_abs_filter_le (fun t => decide (effectiveCategory t = c)) txs
  rw [foldl_jsAdd_exact _ 0 rfl]
  · simp
  · intro a ha
    obtain ⟨t, ht, rfl⟩ := List.mem_map.1 ha
    exact hint t (List.mem_filter.1 ht).1
  · rw [List.map_map]
    simp only [abs_zero, zero_add]
    exact lt_of_le_of_lt hle hb

/-! ## Category aggregate: values (C1) -/

/-- C1 (as stated) fails. With amounts 5 and -3 in one category the entry is
2, not 8; a transaction with the empty category is counted under
`Uncategorized`, which `?? "Uncategorized"` does not select; and under the
label `constructor` the value is `NaN`. -/
theorem pieData_value_not_sum_of_abs :
    (¬ ∀ e ∈ pieData mixedSigns,
        e.value = JsNumber.finite (absTotalNullish e.name mixedSigns)) ∧
    (¬ ∀ e ∈ pieData emptyLabel,
        e.value = JsNumber.finite (absTotalNullish e.name emptyLabel)) ∧
    (¬ ∀ e ∈ pieData constructorLabel,
        e.value = JsNumber.finite (absTotalNullish e.name constructorLabel)) := by
  refine ⟨fun h => ?_, fun h => ?_, fun h => ?_⟩
  · have h1 := h ⟨"A", JsNumber.finite 2⟩ (by rw [pieData_mixedSigns]; simp)
    simp [absTotalNullish, mixedSigns] at h1
    norm_num at h1
  · have h1 := h ⟨"Uncategorized", JsNumber.finite 1⟩ (by rw [pieData_emptyLabel]; simp)
    simp [absTotalNullish, emptyLabel] at h1
  · have h1 := h ⟨"constructor", JsNumber.nan⟩ (by rw [pieData_constructorLabel]; simp)
    simp at h1

/-- C1 (amended): every entry of `pieData` whose name is not the name of a
property inherited from `Object.prototype` has as value `Math.abs` of the sum
of the amounts of the transactions whose `category || "Uncategorized"` equals
the entry's name, that sum being accumulated from 0 in collection order with
the addition of doubles (each step rounded to the nearest double, overflowing
to an infinity). When all amounts are integers whose absolute values total
less than `2^53`, no step rounds and the value is the absolute value of the
exact signed sum. -/
theorem pieData_value_abs_of_signed_total (txs : List Transaction) (e : PieEntry)
    (he : e ∈ pieData txs) (hc : plainLabel e.name) :
    e.value = jsAbs (doubleTotal e.name txs) ∧
    ((∀ t ∈ txs, t.amount.den = 1) →
      (txs.map (fun t => |t.amount|)).sum < 2 ^ 53 →
      e.value = JsNumber.finite |signedTotal e.name txs|) := by
  refine ⟨pieData_value txs e he hc, fun hint hb => ?_⟩
  rw [pieData_value txs e he hc, doubleTotal_exact _ _ hint hb]
  rfl

/-- Instance of `pieData_value_abs_of_signed_total` at the `Housing` entry of
`twoLabels`, where the additions are exact, and at the entry of `tenths`,
where the addition of the doubles 0.1 and 0.2 rounds to 0.30000000000000004
and the value differs from the exact sum. -/
theorem pieData_value_abs_of_signed_total_witness :
    (⟨"Housing", JsNumber.finite 1500⟩ : PieEntry) ∈ pieData twoLabels ∧
    plainLabel "Housing" ∧
    (∀ t ∈ twoLabels, t.amount.den = 1) ∧
    (twoLabels.map (fun t => |t.amount|)).sum < 2 ^ 53 ∧
    (⟨"Housing", JsNumber.finite 1500⟩ : PieEntry).value
      = JsNumber.finite |signedTotal "Housing" twoLabels| ∧
    (⟨"A", JsNumber.finite (1351079888211149 / 4503599627370496)⟩ : PieEntry)
      ∈ pieData tenths ∧
    (⟨"A", JsNumber.finite (1351079888211149 / 4503599627370496)⟩ : PieEntry).value
      = jsAbs (doubleTotal "A" tenths) ∧
    JsNumber.finite (1351079888211149 / 4503599627370496)
      ≠ JsNumber.finite |signedTotal "A" tenths| :=
  have hint : ∀ t ∈ twoLabels, t.amount.den = 1 := by
    intro t ht
    simp only [twoLabels, List.mem_cons, List.mem_singleton, List.mem_nil_iff, or_false] at ht
    rcases ht with rfl | rfl <;> simp
  have hb : (twoLabels.map (fun t => |t.amount|)).sum < 2 ^ 53 := by
    simp [twoLabels]
    norm_num
  have hne : JsNumber.finite (1351079888211149 / 4503599627370496)
      ≠ JsNumber.finite |signedTotal "A" tenths| := by
    have hs : signedTotal "A" tenths = 10808639105689191 / 36028797018963968 := by
      simp [signedTotal, tenths, effectiveCategory]
      norm_num
    have ha : |(10808639105689191 / 36028797018963968 : ℚ)|
        = 10808639105689191 / 36028797018963968 := abs_of_nonneg (by norm_num)
    rw [hs, ha]
    intro h
    have h1 := JsNumber.finite.inj h
    norm_num at h1
  ⟨by rw [pieData_twoLabels]; simp, by decide, hint, hb,
   (pieData_value_abs_of_signed_total twoLabels ⟨"Housing", JsNumber.finite 1500⟩
     (by rw [pieData_twoLabels]; simp) (by decide)).2 hint hb,
   by rw [pieData_tenths]; simp,
   (pieData_value_abs_of_signed_total tenths
     ⟨"A", JsNumber.finite (1351079888211149 / 4503599627370496)⟩
     (by rw [pieData_tenths]; simp) (by decide)).1,
   hne⟩

/-! ## Category aggregate: one entry per category (C2) -/

/-- C2 fails in the code on labels inherited from `Object.prototype`. One
transaction of amount 5 under `toString` yields the entry `toString` with
value `NaN`, where the claim gives the value 5; one transaction under
`__proto__` yields no entry, where the claim gives one entry. -/
theorem pieData_inherited_label_counterexample :
    pieData toStringLabel = [⟨"toString", JsNumber.nan⟩] ∧
    toStringLabel.map effectiveCategory = ["toString"] ∧
    signedTotal "toString" toStringLabel = 5 ∧
    pieData protoLabel = [] ∧
    protoLabel.map effectiveCategory = ["__proto__"] := by
  refine ⟨pieData_toStringLabel, by decide, ?_, pieData_protoLabel, by decide⟩
  simp [signedTotal, toStringLabel, effectiveCategory]

/-! ## Category aggregate: entry order (C9) -/

/-- C9 (as stated) fails: with categories `b` then `1`, the entry named `1`
comes first; and the label `__proto__` yields no entry. -/
theorem pieData_order_counterexample :
    (pieData numericLabel).map PieEntry.name
        ≠ firstSeen (numericLabel.map effectiveCategory) ∧
    (pieData protoLabel).map PieEntry.name
        ≠ firstSeen (protoLabel.map effectiveCategory) := by
  constructor
  · rw [pieData_numericLabel]; decide
  · rw [pieData_protoLabel]; decide

/-- C9 (amended): when no effective category is an array-index string (the
canonical decimal numeral of an integer from 0 to 2^32 - 2) or `__proto__`,
entry `i` of `pieData` is named by the `i`-th distinct effective category in
order of first occurrence. -/
theorem pieData_first_seen_order (txs : List Transaction)
    (h : ∀ t ∈ txs, effectiveCategory t ≠ protoName ∧
      isArrayIndex (effectiveCategory t) = false) :
    (pieData txs).map PieEntry.name = firstSeen (txs.map effectiveCategory) := by
  have hnames : (pieData txs).map PieEntry.name = objectKeys (categoryData txs) := by
    unfold pieData
    simp [List.map_map, Function.comp_def]
  have hfilter : (txs.map effectiveCategory).filter (fun c => c ≠ protoName)
      = txs.map effectiveCategory := by
    rw [List.filter_eq_self]
    intro c hc
    obtain ⟨t, ht, rfl⟩ := List.mem_map.1 hc
    simpa using (h t ht).1
  have hkeys : (categoryData txs).map Prod.fst = firstSeen (txs.map effectiveCategory) := by
    rw [keys_categoryData, hfilter]
  rw [hnames, objectKeys_eq_keys, hkeys]
  intro k hk
  rw [hkeys, mem_firstSeen] at hk
  obtain ⟨t, ht, rfl⟩ := List.mem_map.1 hk
  exact (h t ht).2

/-- Instance of `pieData_first_seen_order` at `twoLabels`. -/
theorem pieData_first_seen_order_witness :
    (∀ t ∈ twoLabels, effectiveCategory t ≠ protoName ∧
      isArrayIndex (effectiveCategory t) = false) ∧
    (pieData twoLabels).map PieEntry.name = ["Housing", "Uncategorized"] :=
  have hp : ∀ t ∈ twoLabels, effectiveCategory t ≠ protoName ∧
      isArrayIndex (effectiveCategory t) = false := by
    intro t ht
    simp only [twoLabels, List.mem_cons, List.mem_singleton, List.mem_nil_iff, or_false] at ht
    rcases ht with rfl | rfl <;> decide
  ⟨hp, (pieData_first_seen_order twoLabels hp).trans (by decide)⟩

/-! ## Palette (C10) -/

/-- C10: the cell at position `i` is filled with `COLORS[i mod 10]`, which is
always defined; positions below ten get pairwise distinct colours; positions
`i` and `i + 10` get the same colour. -/
theorem cellFill_palette :
    COLORS.length = 10 ∧
    (∀ i : Nat, ∃ colour, cellFill i = some colour ∧ COLORS[i % 10]? = some colour) ∧
    (∀ i j : Nat, i < 10 → j < 10 → i ≠ j → cellFill i ≠ cellFill j) ∧
    (∀ i : Nat, cellFill (i + 10) = cellFill i) := by
  have hlen : COLORS.length = 10 := rfl
  refine ⟨hlen, ?_, ?_, ?_⟩
  · intro i
    have hlt : i % 10 < COLORS.length := by rw [hlen]; exact Nat.mod_lt _ (by decide)
    exact ⟨COLORS[i % 10], by simp [cellFill, hlen, List.getElem?_eq_getElem hlt],
      List.getElem?_eq_getElem hlt⟩
  · intro i j hi hj hij
    interval_cases i <;> interval_cases j <;> first | exact absurd rfl hij | decide
  · intro i
    simp [cellFill, hlen]

/-- Instance of `cellFill_palette`: the cells at positions 3 and 7 differ, and
position 13 repeats position 3. -/
theorem cellFill_palette_witness :
    cellFill 3 ≠ cellFill 7 ∧ cellFill 13 = cellFill 3 :=
  ⟨cellFill_palette.2.2.1 3 7 (by decide) (by decide) (by decide),
   cellFill_palette.2.2.2 3⟩

/-! ## Lemmas on the chat handler -/

theorem trim_eq_empty_iff (s : String) : trim s = "" ↔ blank s = true := by
  unfold trim blank
  have h0 : ∀ l : List Char, String.mk l = "" ↔ l = [] := by
    intro l
    constructor
    · intro h
      have := congrArg String.data h
      simpa using this
    · intro h; subst h; rfl
  rw [h0, List.reverse_eq_nil_iff, List.dropWhile_eq_nil_iff]
  constructor
  · intro h
    have hd : s.data.dropWhile isWhiteSpace = [] := by
      by_contra hne
      have h1 := List.head_dropWhile_not isWhiteSpace s.data hne
      have h2 := h _ (List.mem_reverse.2 (List.head_mem hne))
      rw [h2] at h1
      exact absurd h1 (by decide)
    rw [List.dropWhile_eq_nil_iff] at hd
    rw [List.all_eq_true]
    exact hd
  · intro h x hx
    rw [List.all_eq_true] at h
    have hd : s.data.dropWhile isWhiteSpace = [] := by
      rw [List.dropWhile_eq_nil_iff]; exact h
    rw [hd] at hx
    simp at hx

theorem handleSendMessageStart_rejected (st : ChatState)
    (h : blank st.userInput = true ∨ st.isTyping = true) :
    handleSendMessageStart st = none := by
  unfold handleSendMessageStart
  rw [if_pos]
  rcases h with h | h
  · exact Or.inl ((trim_eq_empty_iff _).2 h)
  · exact Or.inr h

theorem handleSendMessageStart_accepted (st : ChatState)
    (hb : blank st.userInput = false) (ht : st.isTyping = false) :
    handleSendMessageStart st =
      some (⟨st.chatHistory ++ [⟨Role.user, st.userInput⟩], "", true⟩,
        st.chatHistory ++ [⟨Role.user, st.userInput⟩], ⟨st.userInput⟩) := by
  unfold handleSendMessageStart
  rw [if_neg]
  rintro (h | h)
  · rw [(trim_eq_empty_iff _).1 h] at hb
    exact absurd hb (by decide)
  · rw [h] at ht
    exact absurd ht (by decide)

theorem fixedDigits_of_floor (y : ℚ) (n : Nat)
    (h : ⌊y * 10 ^ 2 + 1 / 2⌋ = (n : Int)) :
    fixedDigits y 2 = fixedDigits ((n : ℚ) / 100) 2 := by
  have h2 : ⌊((n : ℚ) / 100) * 10 ^ 2 + 1 / 2⌋ = (n : Int) := by
    rw [Int.floor_eq_iff]
    constructor
    · push_cast; linarith
    · push_cast; linarith
  unfold fixedDigits
  rw [h, h2]

theorem fixedDigits_nat (n : Nat) :
    fixedDigits ((n : ℚ) / 100) 2 =
      String.mk
        ((if (Nat.repr n).data.length ≤ 2 then
            List.replicate (3 - (Nat.repr n).data.length) '0' ++ (Nat.repr n).data
          else (Nat.repr n).data).take
          ((if (Nat.repr n).data.length ≤ 2 then
            List.replicate (3 - (Nat.repr n).data.length) '0' ++ (Nat.repr n).data
          else (Nat.repr n).data).length - 2)
        ++ '.' :: (if (Nat.repr n).data.length ≤ 2 then
            List.replicate (3 - (Nat.repr n).data.length) '0' ++ (Nat.repr n).data
          else (Nat.repr n).data).drop
          ((if (Nat.repr n).data.length ≤ 2 then
            List.replicate (3 - (Nat.repr n).data.length) '0' ++ (Nat.repr n).data
          else (Nat.repr n).data).length - 2)) := by
  have h2 : ⌊((n : ℚ) / 100) * 10 ^ 2 + 1 / 2⌋ = (n : Int) := by
    rw [Int.floor_eq_iff]
    constructor
    · push_cast; linarith
    · push_cast; linarith
  unfold fixedDigits
  rw [h2]
  simp

theorem fixedDigits_zero : fixedDigits 0 2 = "0.00" := by
  have h := fixedDigits_nat 0
  simp only [Nat.cast_zero, zero_div] at h
  rw [h]
  decide

theorem fixedDigits_example :
    fixedDigits (7836263351624663 / 9007199254740992) 2 = "0.87" := by
  have h : ⌊(7836263351624663 / 9007199254740992 : ℚ) * 10 ^ 2 + 1 / 2⌋ = ((87 : Nat) : Int) := by
    rw [Int.floor_eq_iff]; norm_num
  rw [fixedDigits_of_floor _ 87 h, fixedDigits_nat]
  decide

theorem fixedDigits_large :
    fixedDigits (10 ^ 21) 2 = "1000000000000000000000.00" := by
  have h : ⌊((10 : ℚ) ^ 21) * 10 ^ 2 + 1 / 2⌋
      = ((100000000000000000000000 : Nat) : Int) := by
    rw [Int.floor_eq_iff]; norm_num
  rw [fixedDigits_of_floor _ _ h, fixedDigits_nat]
  decide

theorem toFixed_eq_twoDecimalPlaces (f : ℚ → String) (x : ℚ) (h : |x| < 10 ^ 21) :
    toFixed f x 2 = twoDecimalPlaces x := by
  unfold toFixed twoDecimalPlaces
  have hy : (if x < 0 then -x else x) = |x| := by
    by_cases hx : x < 0
    · rw [if_pos hx, abs_of_neg hx]
    · rw [if_neg hx, abs_of_nonneg (not_lt.1 hx)]
  simp only [hy]
  rw [if_neg (not_le.2 h)]

set_option maxRecDepth 100000 in
theorem numberToStringLarge_example : numberToStringLarge (10 ^ 21) = "1e+21" := by
  have e : ((10 : ℚ) ^ 21) = ((1000000000000000000000 : Nat) : ℚ) := by norm_num
  unfold numberToStringLarge
  rw [e]
  simp only [Rat.num_natCast, Rat.den_natCast, Int.natAbs_ofNat, Nat.div_one]
  decide

set_option maxRecDepth 100000 in
theorem numberToStringLarge_fraction :
    numberToStringLarge (1500000000000000000000) = "1.5e+21" := by
  have e : (1500000000000000000000 : ℚ) = ((1500000000000000000000 : Nat) : ℚ) := by
    norm_num
  unfold numberToStringLarge
  rw [e]
  simp only [Rat.num_natCast, Rat.den_natCast, Int.natAbs_ofNat, Nat.div_one]
  decide

set_option maxRecDepth 100000 in
theorem sameDouble_below_power :
    roundParts 1180591620717411300000 1 = some (4503599627370496, 18) ∧
    sameDouble 1180591620717411300000 1180591620717411303424 = true ∧
    sameDouble 1180591620717411000000 1180591620717411303424 = false := by
  decide

theorem toFixed_large : toFixed numberToStringLarge (10 ^ 21) 2 = "1e+21" := by
  have h1 : ¬ ((10 : ℚ) ^ 21 < 0) := by norm_num
  unfold toFixed
  simp only [h1, if_false, le_refl, if_true, numberToStringLarge_example]
  decide

theorem handleSendMessage_accepted (f : ℚ → String)
    (backend : CategorizeRequest → CategorizeOutcome) (st : ChatState)
    (hb : blank st.userInput = false) (ht : st.isTyping = false) :
    handleSendMessage f backend st =
      (handleSendMessageResume f
          ⟨st.chatHistory ++ [⟨Role.user, st.userInput⟩], "", true⟩
          (st.chatHistory ++ [⟨Role.user, st.userInput⟩]) (backend ⟨st.userInput⟩),
        [⟨st.userInput⟩]) := by
  unfold handleSendMessage
  rw [handleSendMessageStart_accepted st hb ht]

theorem handleSendMessage_rejected (f : ℚ → String)
    (backend : CategorizeRequest → CategorizeOutcome) (st : ChatState)
    (h : blank st.userInput = true ∨ st.isTyping = true) :
    handleSendMessage f backend st = (st, []) := by
  unfold handleSendMessage
  rw [handleSendMessageStart_rejected st h]

theorem handleSendMessageResume_isTyping (f : ℚ → String) (st : ChatState)
    (newHistory : List ChatMessage) (outcome : CategorizeOutcome) :
    (handleSendMessageResume f st newHistory outcome).isTyping = false := rfl

theorem handleSendMessageResume_history (f : ℚ → String) (st : ChatState)
    (newHistory : List ChatMessage) (outcome : CategorizeOutcome) :
    ∃ reply, (handleSendMessageResume f st newHistory outcome).chatHistory
      = newHistory ++ [⟨Role.assistant, reply⟩] := by
  unfold handleSendMessageResume
  cases categorizeReply f outcome with
  | ok a => exact ⟨_, rfl⟩
  | error a => exact ⟨_, rfl⟩

/-! ## Chat: successful categorization (C3) -/

/-- C3 (as stated) fails for a confidence of `10^21`: `toFixed(2)` then
returns exponent notation, and the assistant text ends in `1e+21` where two
decimal places would give `1000000000000000000000.00`. -/
theorem handleSendMessage_large_confidence_counterexample :
    handleSendMessage numberToStringLarge
        (fun _ => CategorizeOutcome.response 200 ""
          (Except.ok ⟨"Restaurants", some (10 ^ 21)⟩))
        ⟨[], "Starbucks coffee", false⟩ =
      (⟨[⟨Role.user, "Starbucks coffee"⟩,
          ⟨Role.assistant, "Category: **Restaurants** (confidence: 1e+21)"⟩], "", false⟩,
        [⟨"Starbucks coffee"⟩]) ∧
    twoDecimalPlaces (10 ^ 21) = "1000000000000000000000.00" ∧
    "Category: **Restaurants** (confidence: 1e+21)" ≠
      "Category: **Restaurants** (confidence: " ++ twoDecimalPlaces (10 ^ 21) ++ ")" := by
  have h2 : twoDecimalPlaces (10 ^ 21) = "1000000000000000000000.00" := by
    have hn : ¬ ((10 : ℚ) ^ 21 < 0) := by norm_num
    have ha : |(10 : ℚ) ^ 21| = 10 ^ 21 := abs_of_nonneg (by norm_num)
    unfold twoDecimalPlaces
    rw [if_neg hn, ha, fixedDigits_large]
    decide
  refine ⟨?_, h2, ?_⟩
  · rw [handleSendMessage_accepted _ _ ⟨[], "Starbucks coffee", false⟩ (by decide) rfl]
    have hok : responseOk 200 = true := by decide
    simp only [handleSendMessageResume, categorizeReply, hok, Bool.not_true,
      Bool.false_eq_true, if_false, categoryText, Option.getD_some, toFixed_large]
    decide
  · rw [h2]
    decide

/-- C3 (amended): from an idle state with log `L` and non-blank input `s`,
when the backend answers with an ok status and the data `{category,
confidence}` whose confidence is absent or of magnitude below `10^21`, the
handler ends with the log `L` followed by the user message carrying `s` itself
and the assistant message `Category: **category** (confidence: c)`, `c` being
the confidence (0 when absent, then `0.00`) rendered with two decimal places;
the input is cleared, the busy flag is clear, and the single request carries
the description `s` only. -/
theorem handleSendMessage_success (f : ℚ → String)
    (backend : CategorizeRequest → CategorizeOutcome) (L : List ChatMessage)
    (s : String) (status : Nat) (text : String) (data : CategorizeData)
    (hb : blank s = false) (hok : responseOk status = true)
    (hr : backend ⟨s⟩ = CategorizeOutcome.response status text (Except.ok data))
    (hp : |data.confidence.getD 0| < 10 ^ 21) :
    handleSendMessage f backend ⟨L, s, false⟩ =
      (⟨L ++ [⟨Role.user, s⟩, ⟨Role.assistant,
          "Category: **" ++ data.category ++ "** (confidence: "
            ++ twoDecimalPlaces (data.confidence.getD 0) ++ ")"⟩], "", false⟩,
        [⟨s⟩]) ∧
    (data.confidence = none →
      twoDecimalPlaces (data.confidence.getD 0) = "0.00") := by
  constructor
  · rw [handleSendMessage_accepted f backend ⟨L, s, false⟩ hb rfl]
    simp [handleSendMessageResume, hr, categorizeReply, hok, categoryText,
      toFixed_eq_twoDecimalPlaces f _ hp]
  · intro hn
    rw [hn]
    simp only [Option.getD_none, twoDecimalPlaces, lt_self_iff_false, if_false, abs_zero,
      fixedDigits_zero]
    decide

/-- Instance of `handleSendMessage_success`: the input `Starbucks coffee`
answered with `{Restaurants, 0.87}`, the confidence being the double nearest
to 0.87. -/
theorem handleSendMessage_success_witness :
    blank "Starbucks coffee" = false ∧ responseOk 200 = true ∧
    |(7836263351624663 / 9007199254740992 : ℚ)| < 10 ^ 21 ∧
    roundToDouble (87 / 100) = JsNumber.finite (7836263351624663 / 9007199254740992) ∧
    handleSendMessage (fun _ => "")
        (fun _ => CategorizeOutcome.response 200 ""
          (Except.ok ⟨"Restaurants", some (7836263351624663 / 9007199254740992)⟩))
        ⟨[], "Starbucks coffee", false⟩ =
      (⟨[⟨Role.user, "Starbucks coffee"⟩,
          ⟨Role.assistant, "Category: **Restaurants** (confidence: 0.87)"⟩], "", false⟩,
        [⟨"Starbucks coffee"⟩]) :=
  have hp : |(7836263351624663 / 9007199254740992 : ℚ)| < 10 ^ 21 := by
    rw [abs_of_nonneg (by norm_num)]; norm_num
  have hd : roundToDouble (87 / 100)
      = JsNumber.finite (7836263351624663 / 9007199254740992) := by
    have h2 : roundParts 87 100 = some (7836263351624663, -53) := by decide
    have hnum : ((87 : ℚ) / 100).num = 87 := by norm_num
    have hden : ((87 : ℚ) / 100).den = 100 := by norm_num
    have hneg : ¬ ((87 : ℚ) / 100 < 0) := by norm_num
    simp only [roundToDouble, roundRatio, hnum, hden, hneg, decide_False]
    simp [h2]
    norm_num
  ⟨by decide, by decide, hp, hd,
   (handleSendMessage_success (fun _ => "")
      (fun _ => CategorizeOutcome.response 200 ""
        (Except.ok ⟨"Restaurants", some (7836263351624663 / 9007199254740992)⟩))
      [] "Starbucks coffee" 200 ""
      ⟨"Restaurants", some (7836263351624663 / 9007199254740992)⟩
      (by decide) (by decide) rfl hp).1.trans
     (by
      have ht : twoDecimalPlaces (7836263351624663 / 9007199254740992) = "0.87" := by
        have hn : ¬ ((7836263351624663 / 9007199254740992 : ℚ) < 0) := by norm_num
        unfold twoDecimalPlaces
        rw [if_neg hn, abs_of_nonneg (by norm_num), fixedDigits_example]
        decide
      simp only [Option.getD_some, ht]
      decide)⟩

/-! ## Chat: guard (C4) -/

/-- C4: when the input is empty or white space only, or the busy flag is set,
the handler returns the state unchanged and issues no request; when the input
is non-blank and the busy flag is clear, the synchronous part appends the user
message, and the handler issues exactly one request and ends with the log
extended by that user message and one assistant message. -/
theorem handleSendMessage_guard (f : ℚ → String)
    (backend : CategorizeRequest → CategorizeOutcome) (st : ChatState) :
    ((blank st.userInput = true ∨ st.isTyping = true) →
      handleSendMessageStart st = none ∧
      handleSendMessage f backend st = (st, [])) ∧
    (blank st.userInput = false → st.isTyping = false →
      handleSendMessageStart st =
        some (⟨st.chatHistory ++ [⟨Role.user, st.userInput⟩], "", true⟩,
          st.chatHistory ++ [⟨Role.user, st.userInput⟩], ⟨st.userInput⟩) ∧
      (handleSendMessage f backend st).2 = [⟨st.userInput⟩] ∧
      ∃ reply, (handleSendMessage f backend st).1.chatHistory =
        st.chatHistory ++ [⟨Role.user, st.userInput⟩, ⟨Role.assistant, reply⟩]) := by
  constructor
  · intro h
    exact ⟨handleSendMessageStart_rejected st h, handleSendMessage_rejected f backend st h⟩
  · intro hb ht
    refine ⟨handleSendMessageStart_accepted st hb ht, ?_, ?_⟩
    · rw [handleSendMessage_accepted f backend st hb ht]
    · rw [handleSendMessage_accepted f backend st hb ht]
      obtain ⟨reply, hreply⟩ := handleSendMessageResume_history f
        ⟨st.chatHistory ++ [⟨Role.user, st.userInput⟩], "", true⟩
        (st.chatHistory ++ [⟨Role.user, st.userInput⟩]) (backend ⟨st.userInput⟩)
      exact ⟨reply, by rw [hreply]; simp⟩

/-- Instance of `handleSendMessage_guard`: a white-space input is rejected, a
submission while busy is rejected, and `hi` from an idle state issues one
request. -/
theorem handleSendMessage_guard_witness :
    handleSendMessage (fun _ => "") (fun _ => CategorizeOutcome.rejected "down")
        ⟨[], " \t", false⟩ = (⟨[], " \t", false⟩, []) ∧
    handleSendMessage (fun _ => "") (fun _ => CategorizeOutcome.rejected "down")
        ⟨[⟨Role.user, "a"⟩], "b", true⟩ = (⟨[⟨Role.user, "a"⟩], "b", true⟩, []) ∧
    (handleSendMessage (fun _ => "") (fun _ => CategorizeOutcome.rejected "down")
        ⟨[], "hi", false⟩).2 = [⟨"hi"⟩] :=
  ⟨((handleSendMessage_guard (fun _ => "") (fun _ => CategorizeOutcome.rejected "down")
      ⟨[], " \t", false⟩).1 (Or.inl (by decide))).2,
   ((handleSendMessage_guard (fun _ => "") (fun _ => CategorizeOutcome.rejected "down")
      ⟨[⟨Role.user, "a"⟩], "b", true⟩).1 (Or.inr rfl)).2,
   ((handleSendMessage_guard (fun _ => "") (fun _ => CategorizeOutcome.rejected "down")
      ⟨[], "hi", false⟩).2 (by decide) rfl).2.1⟩

/-! ## Chat: failed categorization (C5) -/

theorem apology_ne_categoryText (f : ℚ → String) (message category : String)
    (confidence : Option ℚ) :
    "Sorry, I encountered an error: " ++ message ≠ categoryText f category confidence := by
  intro h
  have h1 := congrArg (fun t : String => t.data.head?) h
  simp [categoryText, String.data_append] at h1

/-- C5: from an idle state with non-blank input, when the response has a
status `k` outside 200-299 and body text `b`, the handler ends with the log
extended by the user message and exactly one assistant message; that text
contains the decimal numeral of `k` and the text `b` and is not a category
message; the busy flag is clear, and a following non-blank submission passes
the guard. -/
theorem handleSendMessage_http_error (f : ℚ → String)
    (backend : CategorizeRequest → CategorizeOutcome) (L : List ChatMessage)
    (s : String) (k : Nat) (b : String) (json : Except String CategorizeData)
    (hb : blank s = false) (hk : responseOk k = false)
    (hr : backend ⟨s⟩ = CategorizeOutcome.response k b json) :
    ∃ reply : String,
      handleSendMessage f backend ⟨L, s, false⟩ =
        (⟨L ++ [⟨Role.user, s⟩, ⟨Role.assistant, reply⟩], "", false⟩, [⟨s⟩]) ∧
      reply = "Sorry, I encountered an error: API error! status: "
        ++ toString k ++ " " ++ b ∧
      (Nat.repr k).data <:+: reply.data ∧
      b.data <:+: reply.data ∧
      (∀ category confidence, reply ≠ categoryText f category confidence) ∧
      (∀ s2 : String, blank s2 = false →
        (handleSendMessageStart
          { (handleSendMessage f backend ⟨L, s, false⟩).1 with userInput := s2 }).isSome
          = true) := by
  have hrun : handleSendMessage f backend ⟨L, s, false⟩ =
      (⟨L ++ [⟨Role.user, s⟩, ⟨Role.assistant,
          "Sorry, I encountered an error: API error! status: "
            ++ toString k ++ " " ++ b⟩], "", false⟩, [⟨s⟩]) := by
    have e : "Sorry, I encountered an error: API error! status: "
        = "Sorry, I encountered an error: " ++ "API error! status: " := by decide
    rw [handleSendMessage_accepted f backend ⟨L, s, false⟩ hb rfl]
    simp [handleSendMessageResume, hr, categorizeReply, hk, String.append_assoc]
    rw [← String.append_assoc, ← e]
  refine ⟨_, hrun, rfl, ?_, ?_, ?_, ?_⟩
  · refine ⟨"Sorry, I encountered an error: API error! status: ".data, (" " ++ b).data, ?_⟩
    simp [String.data_append]
    rfl
  · refine ⟨("Sorry, I encountered an error: API error! status: "
        ++ toString k ++ " ").data, [], ?_⟩
    simp [String.data_append]
  · intro category confidence h
    have h2 : "Sorry, I encountered an error: API error! status: " ++ toString k ++ " " ++ b
        = "Sorry, I encountered an error: " ++ ("API error! status: " ++ toString k ++ " " ++ b) := by
      have e : "Sorry, I encountered an error: API error! status: "
          = "Sorry, I encountered an error: " ++ "API error! status: " := by decide
      rw [e]
      simp only [String.append_assoc]
    rw [h2] at h
    exact apology_ne_categoryText f _ category confidence h
  · intro s2 hs2
    rw [hrun]
    rw [handleSendMessageStart_accepted _ hs2 rfl]
    rfl

/-- Instance of `handleSendMessage_http_error`: status 422 with body
`invalid description`. -/
theorem handleSendMessage_http_error_witness :
    blank "Starbucks coffee" = false ∧ responseOk 422 = false ∧
    ∃ reply : String,
      handleSendMessage (fun _ => "")
          (fun _ => CategorizeOutcome.response 422 "invalid description"
            (Except.error "not JSON"))
          ⟨[], "Starbucks coffee", false⟩ =
        (⟨[] ++ [⟨Role.user, "Starbucks coffee"⟩, ⟨Role.assistant, reply⟩], "", false⟩,
          [⟨"Starbucks coffee"⟩]) ∧
      reply = "Sorry, I encountered an error: API error! status: 422 invalid description" :=
  ⟨by decide, by decide,
   (handleSendMessage_http_error (fun _ => "")
      (fun _ => CategorizeOutcome.response 422 "invalid description"
        (Except.error "not JSON"))
      [] "Starbucks coffee" 422 "invalid description" (Except.error "not JSON")
      (by decide) (by decide) rfl).imp
     (fun _ h => ⟨h.1, h.2.1.trans (by decide)⟩)⟩

/-! ## Chat: busy flag at return (C6) -/

/-- C6 (as stated) fails at the already-busy guard: invoked with the busy flag
set, the handler returns with the flag still set. -/
theorem handleSendMessage_busy_counterexample :
    (handleSendMessage (fun _ => "") (fun _ => CategorizeOutcome.rejected "down")
      ⟨[⟨Role.user, "first"⟩], "second", true⟩).1.isTyping ≠ false := by
  decide

/-- C6 (amended): when the handler is invoked with the busy flag clear, the
flag is clear when it returns, for every outcome (success, failure, or early
exit on blank input); when it is invoked with the flag set, it returns at the
guard and leaves the whole state, the set flag included, as it was. -/
theorem handleSendMessage_isTyping (f : ℚ → String)
    (backend : CategorizeRequest → CategorizeOutcome) (st : ChatState) :
    (st.isTyping = false → (handleSendMessage f backend st).1.isTyping = false) ∧
    (st.isTyping = true → (handleSendMessage f backend st).1 = st) := by
  constructor
  · intro ht
    cases hb : blank st.userInput with
    | true => rw [handleSendMessage_rejected f backend st (Or.inl hb)]; exact ht
    | false =>
      rw [handleSendMessage_accepted f backend st hb ht]
      exact handleSendMessageResume_isTyping f _ _ _
  · intro ht
    rw [handleSendMessage_rejected f backend st (Or.inr ht)]

/-- Instance of `handleSendMessage_isTyping`: a rejected fetch from an idle
state, and a submission while busy. -/
theorem handleSendMessage_isTyping_witness :
    (handleSendMessage (fun _ => "") (fun _ => CategorizeOutcome.rejected "down")
      ⟨[], "hi", false⟩).1.isTyping = false ∧
    (handleSendMessage (fun _ => "") (fun _ => CategorizeOutcome.rejected "down")
      ⟨[], "hi", true⟩).1 = ⟨[], "hi", true⟩ :=
  ⟨(handleSendMessage_isTyping (fun _ => "") (fun _ => CategorizeOutcome.rejected "down")
      ⟨[], "hi", false⟩).1 rfl,
   (handleSendMessage_isTyping (fun _ => "") (fun _ => CategorizeOutcome.rejected "down")
      ⟨[], "hi", true⟩).2 rfl⟩

/-! ## Add-transaction form: successful submission (C7) -/

theorem parseFloat_rent : parseFloat "-1500" = JsNumber.finite (-1500) := by
  have h1 : scanFloat "-1500" = (true, Scanned.decimal 1500 0) := by decide
  have h2 : roundParts 1500 1 = some (6597069766656000, -42) := by decide
  simp [parseFloat, h1, scannedValue, roundRatio, h2]
  norm_num

theorem parseFloat_fraction : parseFloat "12.5" = JsNumber.finite (25 / 2) := by
  have h1 : scanFloat "12.5" = (false, Scanned.decimal 125 (-1)) := by decide
  have h2 : roundParts 125 10 = some (7036874417766400, -49) := by decide
  simp [parseFloat, h1, scannedValue, roundRatio, h2]
  norm_num

theorem parseFloat_exponent : parseFloat "1e3" = JsNumber.finite 1000 := by
  have h1 : scanFloat "1e3" = (false, Scanned.decimal 1 3) := by decide
  have h2 : roundParts 1000 1 = some (8796093022208000, -43) := by decide
  simp [parseFloat, h1, scannedValue, roundRatio, h2]
  norm_num

theorem parseFloat_negative_exponent :
    parseFloat "+2.5E-1" = JsNumber.finite (1 / 4) := by
  have h1 : scanFloat "+2.5E-1" = (false, Scanned.decimal 25 (-2)) := by decide
  have h2 : roundParts 25 100 = some (4503599627370496, -54) := by decide
  simp [parseFloat, h1, scannedValue, roundRatio, h2]
  norm_num

theorem parseFloat_prefix : parseFloat "  7px" = JsNumber.finite 7 := by
  have h1 : scanFloat "  7px" = (false, Scanned.decimal 7 0) := by decide
  have h2 : roundParts 7 1 = some (7881299347898368, -50) := by decide
  simp [parseFloat, h1, scannedValue, roundRatio, h2]
  norm_num

theorem parseFloat_tenth :
    parseFloat "0.1" = JsNumber.finite (3602879701896397 / 36028797018963968) := by
  have h1 : scanFloat "0.1" = (false, Scanned.decimal 1 (-1)) := by decide
  have h2 : roundParts 1 10 = some (7205759403792794, -56) := by decide
  simp [parseFloat, h1, scannedValue, roundRatio, h2]
  norm_num

theorem parseFloat_rounds :
    parseFloat "9007199254740993" = JsNumber.finite 9007199254740992 := by
  have h1 : scanFloat "9007199254740993"
      = (false, Scanned.decimal 9007199254740993 0) := by decide
  have h2 : roundParts 9007199254740993 1 = some (4503599627370496, 1) := by decide
  simp [parseFloat, h1, scannedValue, roundRatio, h2]
  norm_num

set_option exponentiation.threshold 2000 in
set_option maxRecDepth 100000 in
theorem parseFloat_overflow : parseFloat "1e400" = JsNumber.infinity false := by
  have h1 : scanFloat "1e400" = (false, Scanned.decimal 1 400) := by decide
  have h2 : roundParts (1 * 10 ^ 400) (10 ^ 0) = none := by decide
  have h3 : (1 * 10 ^ 400 : Nat) ≠ 0 := by positivity
  have e1 : (400 : Int).toNat = 400 := rfl
  have e2 : (-(400 : Int)).toNat = 0 := rfl
  simp only [parseFloat, h1, scannedValue, roundRatio]
  rw [e1, e2, if_neg h3, h2]

set_option exponentiation.threshold 2000 in
set_option maxRecDepth 100000 in
theorem parseFloat_largest :
    parseFloat "1.7976931348623157e308"
      = JsNumber.finite (9007199254740991 * 2 ^ (971 : ℤ)) := by
  have h1 : scanFloat "1.7976931348623157e308"
      = (false, Scanned.decimal 17976931348623157 292) := by decide
  have h2 : roundParts (17976931348623157 * 10 ^ 292) (10 ^ 0)
      = some (9007199254740991, 971) := by decide
  have h3 : (17976931348623157 * 10 ^ 292 : Nat) ≠ 0 := by positivity
  have e1 : (292 : Int).toNat = 292 := rfl
  have e2 : (-(292 : Int)).toNat = 0 := rfl
  simp only [parseFloat, h1, scannedValue, roundRatio]
  rw [e1, e2, if_neg h3, h2]
  simp

set_option exponentiation.threshold 2000 in
set_option maxRecDepth 100000 in
theorem parseFloat_above_largest :
    parseFloat "1.7976931348623159e308" = JsNumber.infinity false := by
  have h1 : scanFloat "1.7976931348623159e308"
      = (false, Scanned.decimal 17976931348623159 292) := by decide
  have h2 : roundParts (17976931348623159 * 10 ^ 292) (10 ^ 0) = none := by decide
  have h3 : (17976931348623159 * 10 ^ 292 : Nat) ≠ 0 := by positivity
  have e1 : (292 : Int).toNat = 292 := rfl
  have e2 : (-(292 : Int)).toNat = 0 := rfl
  simp only [parseFloat, h1, scannedValue, roundRatio]
  rw [e1, e2, if_neg h3, h2]

set_option exponentiation.threshold 2000 in
set_option maxRecDepth 100000 in
theorem parseFloat_smallest :
    parseFloat "5e-324" = JsNumber.finite (2 ^ (-1074 : ℤ)) := by
  have h1 : scanFloat "5e-324" = (false, Scanned.decimal 5 (-324)) := by decide
  have h2 : roundParts (5 * 10 ^ 0) (10 ^ 324) = some (1, -1074) := by decide
  have h3 : (5 * 10 ^ 0 : Nat) ≠ 0 := by decide
  have e1 : (-(324 : Int)).toNat = 0 := rfl
  have e2 : (-(-(324 : Int))).toNat = 324 := rfl
  simp only [parseFloat, h1, scannedValue, roundRatio]
  rw [e1, e2, if_neg h3, h2]
  simp

set_option exponentiation.threshold 2000 in
set_option maxRecDepth 100000 in
theorem parseFloat_underflow : parseFloat "2e-324" = JsNumber.finite 0 := by
  have h1 : scanFloat "2e-324" = (false, Scanned.decimal 2 (-324)) := by decide
  have h2 : roundParts (2 * 10 ^ 0) (10 ^ 324) = some (0, -1074) := by decide
  have h3 : (2 * 10 ^ 0 : Nat) ≠ 0 := by decide
  have e1 : (-(324 : Int)).toNat = 0 := rfl
  have e2 : (-(-(324 : Int))).toNat = 324 := rfl
  simp only [parseFloat, h1, scannedValue, roundRatio]
  rw [e1, e2, if_neg h3, h2]
  simp

theorem parseFloat_not_numeric :
    parseFloat "" = JsNumber.nan ∧ parseFloat "abc" = JsNumber.nan ∧
    parseFloat "." = JsNumber.nan ∧
    parseFloat "-Infinity" = JsNumber.infinity true := by
  have h1 : scanFloat "" = (false, Scanned.notNumeric) := by decide
  have h2 : scanFloat "abc" = (false, Scanned.notNumeric) := by decide
  have h3 : scanFloat "." = (false, Scanned.notNumeric) := by decide
  have h4 : scanFloat "-Infinity" = (true, Scanned.infinity) := by decide
  simp [parseFloat, h1, h2, h3, h4, scannedValue]

/-- C7: when the create request is answered with an ok status and the record
`r`, the submit handler ends with the transaction list `L` followed by `r`,
the modal closed and the draft `{today, "", "", ""}`; its single request
carries the draft's date, description and category unchanged and, as amount,
`parseFloat` of the draft's amount text. `parseFloat` is the numeric parse of
the runtime: `-1500` gives -1500, fraction and exponent count (`12.5`, `1e3`,
`+2.5E-1`), a numeric prefix is enough (`  7px`), the value is rounded to the
nearest double (`0.1`, `9007199254740993`), overflows to `Infinity` above the
largest double (`1e400`, `1.7976931348623159e308`) and underflows to 0 below
half the smallest (`2e-324`), and text without numeric prefix gives `NaN`. -/
theorem onSubmit_success (today : String) (backend : CreateBody → CreateOutcome)
    (L : List Transaction) (modal : Bool) (d : Draft) (status : Nat) (r : Transaction)
    (hok : responseOk status = true)
    (hr : backend ⟨d.date, d.description, parseFloat d.amount, d.category⟩
      = CreateOutcome.response status (Except.ok r)) :
    onSubmit today backend ⟨L, modal, d⟩ =
      (⟨L ++ [r], false, ⟨today, "", "", ""⟩⟩,
        [⟨d.date, d.description, parseFloat d.amount, d.category⟩]) ∧
    (L ++ [r]).take L.length = L ∧
    parseFloat "-1500" = JsNumber.finite (-1500) ∧
    parseFloat "12.5" = JsNumber.finite (25 / 2) ∧
    parseFloat "1e3" = JsNumber.finite 1000 ∧
    parseFloat "+2.5E-1" = JsNumber.finite (1 / 4) ∧
    parseFloat "  7px" = JsNumber.finite 7 ∧
    parseFloat "0.1" = JsNumber.finite (3602879701896397 / 36028797018963968) ∧
    parseFloat "9007199254740993" = JsNumber.finite 9007199254740992 ∧
    parseFloat "1e400" = JsNumber.infinity false ∧
    parseFloat "1.7976931348623157e308"
      = JsNumber.finite (9007199254740991 * 2 ^ (971 : ℤ)) ∧
    parseFloat "1.7976931348623159e308" = JsNumber.infinity false ∧
    parseFloat "5e-324" = JsNumber.finite (2 ^ (-1074 : ℤ)) ∧
    parseFloat "2e-324" = JsNumber.finite 0 ∧
    parseFloat "" = JsNumber.nan ∧ parseFloat "abc" = JsNumber.nan ∧
    parseFloat "." = JsNumber.nan ∧
    parseFloat "-Infinity" = JsNumber.infinity true := by
  refine ⟨?_, ?_, parseFloat_rent, parseFloat_fraction, parseFloat_exponent,
    parseFloat_negative_exponent, parseFloat_prefix, parseFloat_tenth, parseFloat_rounds,
    parseFloat_overflow, parseFloat_largest, parseFloat_above_largest, parseFloat_smallest,
    parseFloat_underflow, parseFloat_not_numeric⟩
  · simp [onSubmit, createBody, hr, hok, defaultDraft]
  · simp

/-- Instance of `onSubmit_success`: the draft
`{2024-01-15, Rent, -1500, Housing}` is sent with amount -1500 and the returned
record is appended after the existing one. -/
theorem onSubmit_success_witness :
    responseOk 201 = true ∧
    onSubmit "2024-02-01"
        (fun _ => CreateOutcome.response 201
          (Except.ok ⟨7, "2024-01-15", "Rent", -1500, some "Housing"⟩))
        ⟨[⟨1, "2024-01-10", "Salary", 5, some "A"⟩], true,
          ⟨"2024-01-15", "Rent", "-1500", "Housing"⟩⟩ =
      (⟨[⟨1, "2024-01-10", "Salary", 5, some "A"⟩,
          ⟨7, "2024-01-15", "Rent", -1500, some "Housing"⟩], false,
          ⟨"2024-02-01", "", "", ""⟩⟩,
        [⟨"2024-01-15", "Rent", JsNumber.finite (-1500), "Housing"⟩]) :=
  ⟨by decide,
   (onSubmit_success "2024-02-01"
      (fun _ => CreateOutcome.response 201
        (Except.ok ⟨7, "2024-01-15", "Rent", -1500, some "Housing"⟩))
      [⟨1, "2024-01-10", "Salary", 5, some "A"⟩] true
      ⟨"2024-01-15", "Rent", "-1500", "Housing"⟩ 201
      ⟨7, "2024-01-15", "Rent", -1500, some "Housing"⟩ (by decide) rfl).1.trans
     (by rw [parseFloat_rent]; rfl)⟩

/-! ## Add-transaction form: Cancel (C8) -/

/-- C8 (as stated) fails: after Cancel on a filled-in draft the draft is not a
default draft, whatever the current date. -/
theorem onCancel_keeps_draft_counterexample :
    ¬ ∃ today : String,
      (onCancel ⟨[], true, ⟨"2024-01-15", "Rent", "-1500", "Housing"⟩⟩).newTransaction
        = defaultDraft today := by
  rintro ⟨today, h⟩
  have h1 := congrArg Draft.description h
  simp [onCancel, defaultDraft] at h1

/-- C8 (amended): the Cancel action closes the modal and leaves the draft and
the transaction list as they were. A submission that fails (the request is
rejected, the status is outside 200-299, or the body cannot be read) leaves
the whole state, the draft included, as it was. A submission answered with an
ok status and a record resets the draft to its default. -/
theorem onCancel_effect (today : String) (backend : CreateBody → CreateOutcome)
    (st : FormState) :
    ((onCancel st).showNewTransactionModal = false ∧
      (onCancel st).newTransaction = st.newTransaction ∧
      (onCancel st).transactions = st.transactions) ∧
    (∀ message, backend (createBody st.newTransaction) = CreateOutcome.rejected message →
      (onSubmit today backend st).1 = st) ∧
    (∀ status json, backend (createBody st.newTransaction)
        = CreateOutcome.response status json → responseOk status = false →
      (onSubmit today backend st).1 = st) ∧
    (∀ status message, backend (createBody st.newTransaction)
        = CreateOutcome.response status (Except.error message) →
      (onSubmit today backend st).1 = st) ∧
    (∀ status r, backend (createBody st.newTransaction)
        = CreateOutcome.response status (Except.ok r) → responseOk status = true →
      (onSubmit today backend st).1.newTransaction = defaultDraft today) := by
  refine ⟨⟨rfl, rfl, rfl⟩, ?_, ?_, ?_, ?_⟩
  · intro message h
    simp [onSubmit, h]
  · intro status json h hs
    simp [onSubmit, h, hs]
  · intro status message h
    cases hs : responseOk status <;> simp [onSubmit, h, hs]
  · intro status r h hs
    simp [onSubmit, h, hs]

/-- Instance of `onCancel_effect`: a filled-in draft survives a submission
answered with status 500 and one whose request is rejected, and is reset by
one answered with status 201. -/
theorem onCancel_effect_witness :
    (onSubmit "2024-02-01" (fun _ => CreateOutcome.rejected "offline")
      ⟨[], true, ⟨"2024-01-15", "Rent", "-1500", "Housing"⟩⟩).1
      = ⟨[], true, ⟨"2024-01-15", "Rent", "-1500", "Housing"⟩⟩ ∧
    (onSubmit "2024-02-01"
      (fun _ => CreateOutcome.response 500 (Except.error "Internal Server Error"))
      ⟨[], true, ⟨"2024-01-15", "Rent", "-1500", "Housing"⟩⟩).1
      = ⟨[], true, ⟨"2024-01-15", "Rent", "-1500", "Housing"⟩⟩ ∧
    (onSubmit "2024-02-01"
      (fun _ => CreateOutcome.response 201
        (Except.ok ⟨7, "2024-01-15", "Rent", -1500, some "Housing"⟩))
      ⟨[], true, ⟨"2024-01-15", "Rent", "-1500", "Housing"⟩⟩).1.newTransaction
      = defaultDraft "2024-02-01" :=
  ⟨(onCancel_effect "2024-02-01" (fun _ => CreateOutcome.rejected "offline")
      ⟨[], true, ⟨"2024-01-15", "Rent", "-1500", "Housing"⟩⟩).2.1 "offline" rfl,
   (onCancel_effect "2024-02-01"
      (fun _ => CreateOutcome.response 500 (Except.error "Internal Server Error"))
      ⟨[], true, ⟨"2024-01-15", "Rent", "-1500", "Housing"⟩⟩).2.2.1 500
      (Except.error "Internal Server Error") rfl (by decide),
   (onCancel_effect "2024-02-01"
      (fun _ => CreateOutcome.response 201
        (Except.ok ⟨7, "2024-01-15", "Rent", -1500, some "Housing"⟩))
      ⟨[], true, ⟨"2024-01-15", "Rent", "-1500", "Housing"⟩⟩).2.2.2.2 201
      ⟨7, "2024-01-15", "Rent", -1500, some "Housing"⟩ rfl (by decide)⟩

end FinWiz
